import Mathlib

/-!
# example-numa-aware-cpu-driver: claim preparation state machine

A shallow embedding of `cmd/example-numa-aware-cpu-kubeletplugin/{state,cdi,discovery}.go`
and of the constants and config steps of `api/nvidia.com/resource/cpu/v1alpha1/api.go`.

Conventions of the embedding

* Go maps are partial functions `String → Option V`; `m[k]` on a missing key is the zero value.
* The Go slice type `PreparedDevices` keeps the difference between the nil slice and a
  non-nil slice, because `Prepare` and `Unprepare` test `preparedClaims[claimUID] != nil`.
* The two external stores (the CDI spec directory behind `cdiapi.Cache` and the checkpoint
  file behind `checkpointmanager.CheckpointManager`) are fields of the state that is threaded
  through every call. Whether a store operation fails in a given call is decided by an
  `Oracle`; a failed store operation leaves its store as it was. `cache.WriteSpec` also
  validates the spec it is given, as the CDI library of the imported API generation does.
* Library functions that are not part of the repository are parameters (`Deps`).
-/

namespace NumaCpu

/-! ## Kubernetes and CDI data types used by the driver -/

/-- The struct `drapbv1.Device`: the handle returned to the kubelet for one prepared device. -/
structure drapbv1.Device where
  RequestNames : List String
  PoolName : String
  DeviceName : String
  CDIDeviceIDs : List String
  deriving DecidableEq, Repr

/-- The struct `cdispec.ContainerEdits`; the driver only ever fills `Env`. -/
structure cdispec.ContainerEdits where
  Env : List String
  deriving DecidableEq, Repr

/-- The struct `cdispec.Device`: one device of a CDI spec (its edits stay at the zero value). -/
structure cdispec.Device where
  Name : String
  ContainerEdits : cdispec.ContainerEdits
  deriving DecidableEq, Repr

/-- The struct `cdispec.Spec`: the content of one descriptor artifact. -/
structure cdispec.Spec where
  Version : String
  Kind : String
  Devices : List cdispec.Device
  ContainerEdits : cdispec.ContainerEdits
  deriving DecidableEq, Repr

/-- The struct `resourceapi.DeviceRequestAllocationResult`. -/
structure resourceapi.DeviceRequestAllocationResult where
  Request : String
  Driver : String
  Pool : String
  Device : String
  deriving DecidableEq, Repr

/-- The struct `resourceapi.DeviceAllocationResult`. -/
structure resourceapi.DeviceAllocationResult where
  Results : List resourceapi.DeviceRequestAllocationResult
  deriving DecidableEq, Repr

/-- The struct `resourceapi.AllocationResult`. -/
structure resourceapi.AllocationResult where
  Devices : resourceapi.DeviceAllocationResult
  deriving DecidableEq, Repr

/-- The struct `resourceapi.ResourceClaimStatus`; `Allocation` is a pointer, `none` is nil. -/
structure resourceapi.ResourceClaimStatus where
  Allocation : Option resourceapi.AllocationResult
  deriving DecidableEq, Repr

/-- The struct `resourceapi.ResourceClaim`, with the fields the driver reads. -/
structure resourceapi.ResourceClaim where
  Name : String
  UID : String
  Status : resourceapi.ResourceClaimStatus
  deriving DecidableEq, Repr

/-- The struct `resourceapi.Device` as `enumerateAllCPUDevices` builds it: the attribute map
literal of discovery.go has exactly the keys `architecture`, `id`, `parentID`,
`dra.nvidia.com/numa` and `driverVersion`, each with one value set, and the capacity map has
the key `memory`. -/
structure resourceapi.Device where
  Name : String
  architecture : String
  id : Int
  parentID : Int
  numa : Int
  driverVersion : String
  memory : String
  deriving DecidableEq, Repr

/-! ## Constants and external library functions -/

/-- The constant `GroupName` of api.go. -/
def GroupName : String := "cpu.nvidia.com"

/-- What the driver takes from outside the repository sources at hand: the constant
`DriverName` (declared in main.go) and the CDI library functions `parser.QualifiedName`,
`cdi.GenerateTransientSpecName` and `cdi.MinimumRequiredVersion`. -/
structure Deps where
  DriverName : String
  QualifiedName : String → String → String → String
  GenerateTransientSpecName : String → String → String → String
  MinimumRequiredVersion : cdispec.Spec → Except String String

/-- The constant `cdiVendor` of cdi.go. -/
def cdiVendor (d : Deps) : String := "k8s." ++ d.DriverName

/-- The constant `cdiClass` of cdi.go. -/
def cdiClass : String := "cpu"

/-- The constant `cdiKind` of cdi.go. -/
def cdiKind (d : Deps) : String := cdiVendor d ++ "/" ++ cdiClass

/-- The constant `cdiCommonDeviceName` of cdi.go. -/
def cdiCommonDeviceName : String := "common"

/-! ## Driver types of state.go -/

/-- The struct `PreparedDevice`: an embedded `drapbv1.Device` and a pointer to edits. -/
structure PreparedDevice where
  Device : drapbv1.Device
  ContainerEdits : Option cdispec.ContainerEdits
  deriving DecidableEq, Repr

/-- The slice type `PreparedDevices`; `none` is the nil slice, `some l` a non-nil slice. -/
abbrev PreparedDevices := Option (List PreparedDevice)

/-- The map type `PreparedClaims`; `none` at a key means the key is not in the map. -/
abbrev PreparedClaims := String → Option PreparedDevices

/-- The map type `AllocatableDevices`, as its list of key/value entries. -/
abbrev AllocatableDevices := List (String × resourceapi.Device)

/-- Go `append(pds, pd)` on a `PreparedDevices` slice: appending to nil gives a non-nil slice. -/
def PreparedDevices.append (pds : PreparedDevices) (pd : PreparedDevice) : PreparedDevices :=
  some (pds.getD [] ++ [pd])

/-- Go index expression `preparedClaims[claimUID]`: the nil slice when the key is missing. -/
def PreparedClaims.index (m : PreparedClaims) (claimUID : String) : PreparedDevices :=
  match m claimUID with
  | some pds => pds
  | none => none

/-- Go assignment `preparedClaims[claimUID] = pds`. -/
def PreparedClaims.set (m : PreparedClaims) (claimUID : String) (pds : PreparedDevices) :
    PreparedClaims :=
  Function.update m claimUID (some pds)

/-- Go `delete(preparedClaims, claimUID)`. -/
def PreparedClaims.delete (m : PreparedClaims) (claimUID : String) : PreparedClaims :=
  Function.update m claimUID none

/-- Method `PreparedDevices.GetDevices` (state.go 49-55). -/
def PreparedDevices.GetDevices (pds : PreparedDevices) : List drapbv1.Device :=
  (pds.getD []).foldl (fun devices pd => devices ++ [pd.Device]) []

/-- Modelled from the spec: the type `CheckpointV1` of the absent checkpoint.go, the versioned
body of the snapshot holding the mapping from claim id to PreparedClaim (spec section 3). -/
structure CheckpointV1 where
  PreparedClaims : PreparedClaims

/-- Modelled from the spec: the type `Checkpoint` of the absent checkpoint.go, the snapshot
`CheckpointSnapshot` of spec section 3; the field name `V1` is its version tag. -/
structure Checkpoint where
  V1 : CheckpointV1

/-- Modelled from the spec: `newCheckpoint` of the absent checkpoint.go, the empty snapshot
that is created when none exists (spec sections 3 and 4.4). -/
def newCheckpoint : Checkpoint := { V1 := { PreparedClaims := fun _ => none } }

/-- The struct `CDIHandler`; `cache` is the spec directory behind `cdiapi.Cache`, a map from
spec name to the spec written under that name. -/
structure CDIHandler where
  cache : String → Option cdispec.Spec

/-- Modelled from the spec: the serialized `CheckpointSnapshot` that the one slot of the
durable store holds (spec section 6), the blob that the absent checkpoint.go encodes: a
schema/version tag and the mapping from claim id to the ordered PreparedDevice list. -/
structure SerializedCheckpoint where
  version : String
  preparedClaims : PreparedClaims

/-- Modelled from the spec: `MarshalCheckpoint` of the absent checkpoint.go. The format is an
implementation detail that must round-trip losslessly (spec section 6); the encoding keeps
the mapping, nil slices included, and adds the version tag. -/
def Checkpoint.MarshalCheckpoint (cp : Checkpoint) : SerializedCheckpoint :=
  { version := "v1", preparedClaims := cp.V1.PreparedClaims }

/-- Modelled from the spec: `UnmarshalCheckpoint` of the absent checkpoint.go, the decoding
of a blob into the snapshot it serializes (spec section 6). -/
def Checkpoint.UnmarshalCheckpoint (data : SerializedCheckpoint) : Checkpoint :=
  { V1 := { PreparedClaims := data.preparedClaims } }

/-- The checkpoint store behind `checkpointmanager.CheckpointManager`: the blob in the one
slot `DriverPluginCheckpointFile`, which `NewDeviceState` creates before any call. -/
structure CheckpointManager where
  stored : SerializedCheckpoint

/-- A call that `Prepare` or `Unprepare` makes, for the record kept in `DeviceState.calls`. -/
inductive Call where
  | GetCheckpoint
  | prepareDevices (claimUID : String)
  | CreateClaimSpecFile (claimUID : String)
  | unprepareDevices (claimUID : String)
  | DeleteClaimSpecFile (claimUID : String)
  | CreateCheckpoint
  deriving DecidableEq, Repr

/-- The struct `DeviceState`. The mutex is left out (calls are modelled one at a time);
`calls` is a ghost field recording, oldest first, the calls made so far. -/
structure DeviceState where
  cdi : CDIHandler
  allocatable : AllocatableDevices
  checkpointManager : CheckpointManager
  calls : List Call

/-- What the environment decides during one call of `Prepare` or `Unprepare`: the error, if
any, of each store operation, and the order in which the Go runtime visits the entries of
the map `allocatable` in the `i`-th `range` statement over it. -/
structure Oracle where
  GetCheckpoint : Option String
  WriteSpec : Option String
  RemoveSpec : Option String
  CreateCheckpoint : Option String
  rangeOrder : Nat → AllocatableDevices → AllocatableDevices

/-- Appends one call to the ghost record. -/
def DeviceState.record (s : DeviceState) (c : Call) : DeviceState :=
  { s with calls := s.calls ++ [c] }

/-! ## discovery.go -/

/-- Go assignment `alldevices[k] = v` on the entry list of an `AllocatableDevices` map: an
existing key keeps its place and gets the new value, a new key is added. -/
def AllocatableDevices.set (m : AllocatableDevices) (k : String) (v : resourceapi.Device) :
    AllocatableDevices :=
  if m.any (fun e => e.1 = k) then m.map (fun e => if e.1 = k then (k, v) else e)
  else m ++ [(k, v)]

/-- Function `enumerateAllCPUDevices` (discovery.go 26-75); the diagnostic print is left out.
The counting loop over `thread` is a fold over `0 .. numThreads*numCores - 1`. -/
def enumerateAllCPUDevices : Except String AllocatableDevices :=
  let numCores : Int := 16
  let numThreads : Int := 2
  let alldevices : AllocatableDevices :=
    (List.range (numThreads * numCores).toNat).foldl (fun alldevices t =>
      let thread : Int := t
      let core : Int := if thread < 16 then Int.tmod thread 16 else thread - 16
      let numaNode : Int := if core < 8 then 0 else 1
      let device : resourceapi.Device :=
        { Name := "cpu-" ++ toString thread
          architecture := "amd64"
          id := thread
          parentID := core
          numa := numaNode
          driverVersion := "1.0.0"
          memory := "80Gi" }
      alldevices.set device.Name device) []
  .ok alldevices

/-! ## cdi.go -/

/-- Go `%q` of a name without characters that need escaping: the name in double quotes. -/
def goQuote (name : String) : String :=
  String.singleton (Char.ofNat 34) ++ name ++ String.singleton (Char.ofNat 34)

/-- The error with which the CDI library refuses a spec whose device `name` carries no
container edits. -/
def emptyEditsError (name : String) : String :=
  "invalid CDI Spec: failed add device " ++ goQuote name ++
    ": invalid device, empty device edits"

/-- The validation that `cache.WriteSpec` of the CDI library runs on a spec before writing
it, in the library generation of the imported APIs (CDI 0.x): every device must carry
container edits, and the first device without any makes the spec invalid. A spec without
devices is valid. The other checks of the library (device and vendor names, version,
environment syntax) come before or after this one and refuse nothing that it accepts among
the specs `CreateClaimSpecFile` builds from well-formed names. -/
def validateSpec (spec : cdispec.Spec) : Except String Unit :=
  match spec.Devices.find? (fun device => device.ContainerEdits.Env.isEmpty) with
  | some device => .error (emptyEditsError device.Name)
  | none => .ok ()

/-- The store operation `cache.WriteSpec(spec, specName)` of the CDI library: it validates
the spec and returns the validation error for an invalid one; it fails when the oracle says
so; in both cases the directory is left as it was. Otherwise it puts `spec` under
`specName`, replacing what was there. -/
def CDIHandler.WriteSpec (cdi : CDIHandler) (o : Oracle) (spec : cdispec.Spec)
    (specName : String) : Except String Unit × CDIHandler :=
  match validateSpec spec with
  | .error err => (.error err, cdi)
  | .ok () =>
    match o.WriteSpec with
    | some err => (.error err, cdi)
    | none => (.ok (), { cache := Function.update cdi.cache specName (some spec) })

/-- The store operation `cache.RemoveSpec(specName)` of the CDI library: it fails when the
oracle says so, leaving the directory as it was, and otherwise removes the spec of that name
(a no-op when there is none). -/
def CDIHandler.RemoveSpec (cdi : CDIHandler) (o : Oracle) (specName : String) :
    Except String Unit × CDIHandler :=
  match o.RemoveSpec with
  | some err => (.error err, cdi)
  | none => (.ok (), { cache := Function.update cdi.cache specName none })

/-- Method `CDIHandler.CreateClaimSpecFile` (cdi.go 84-108). -/
def CDIHandler.CreateClaimSpecFile (d : Deps) (cdi : CDIHandler) (o : Oracle)
    (claimUID : String) (devices : PreparedDevices)
    (containerEdits : cdispec.ContainerEdits) : Except String Unit × CDIHandler :=
  let specName := d.GenerateTransientSpecName (cdiVendor d) cdiClass claimUID
  let spec : cdispec.Spec :=
    { Version := "", Kind := cdiKind d, Devices := [], ContainerEdits := { Env := [] } }
  let spec : cdispec.Spec := (devices.getD []).foldl (fun spec device =>
    let cdiDevice : cdispec.Device :=
      { Name := claimUID ++ "-" ++ device.Device.DeviceName, ContainerEdits := { Env := [] } }
    { spec with Devices := spec.Devices ++ [cdiDevice] }) spec
  match d.MinimumRequiredVersion spec with
  | .error err => (.error ("failed to get minimum required CDI spec version: " ++ err), cdi)
  | .ok minVersion =>
    let spec := { spec with Version := minVersion }
    let spec := { spec with ContainerEdits := containerEdits }
    cdi.WriteSpec o spec specName

/-- Method `CDIHandler.DeleteClaimSpecFile` (cdi.go 110-113). -/
def CDIHandler.DeleteClaimSpecFile (d : Deps) (cdi : CDIHandler) (o : Oracle)
    (claimUID : String) : Except String Unit × CDIHandler :=
  let specName := d.GenerateTransientSpecName (cdiVendor d) cdiClass claimUID
  cdi.RemoveSpec o specName

/-- Method `CDIHandler.GetClaimDevices` (cdi.go 115-126). -/
def CDIHandler.GetClaimDevices (d : Deps) (claimUID : String) (devices : List String) :
    List String :=
  let cdiDevices : List String := [d.QualifiedName (cdiVendor d) cdiClass cdiCommonDeviceName]
  devices.foldl (fun cdiDevices device =>
    let cdiDevice := d.QualifiedName (cdiVendor d) cdiClass (claimUID ++ "-" ++ device)
    cdiDevices ++ [cdiDevice]) cdiDevices

/-! ## state.go -/

/-- The store operation `checkpointManager.GetCheckpoint(DriverPluginCheckpointFile, cp)`:
it fails when the oracle says so, and otherwise decodes the stored blob into `cp`. -/
def CheckpointManager.GetCheckpoint (cm : CheckpointManager) (o : Oracle) :
    Except String Checkpoint :=
  match o.GetCheckpoint with
  | some err => .error err
  | none => .ok (Checkpoint.UnmarshalCheckpoint cm.stored)

/-- The store operation `checkpointManager.CreateCheckpoint(DriverPluginCheckpointFile, cp)`:
it fails when the oracle says so, leaving the slot as it was, and otherwise overwrites it
with the encoding of `cp`. -/
def CheckpointManager.CreateCheckpoint (cm : CheckpointManager) (o : Oracle)
    (checkpoint : Checkpoint) : Except String Unit × CheckpointManager :=
  match o.CreateCheckpoint with
  | some err => (.error err, cm)
  | none => (.ok (), { stored := checkpoint.MarshalCheckpoint })

/-- Method `DeviceState.filterDevicesForDriver` (state.go 202-210). -/
def DeviceState.filterDevicesForDriver
    (statusDevices : List resourceapi.DeviceRequestAllocationResult) (driverName : String) :
    List resourceapi.DeviceRequestAllocationResult :=
  statusDevices.foldl (fun driverFilteredDevices device =>
    if device.Driver = driverName then driverFilteredDevices ++ [device]
    else driverFilteredDevices) []

/-- Method `DeviceState.unprepareDevices` (state.go 212-214): it always returns nil. -/
def DeviceState.unprepareDevices (_claimUID : String) (_devices : PreparedDevices) :
    Except String Unit :=
  .ok ()

/-- Method `DeviceState.applyConfig` (state.go 222-239). The range statement over the map
`s.allocatable` is run once for each result; its `i`-th run visits the entries in the order
`o.rangeOrder i s.allocatable`. -/
def DeviceState.applyConfig (s : DeviceState) (o : Oracle) (claim : resourceapi.ResourceClaim)
    (results : List resourceapi.DeviceRequestAllocationResult) :
    Except String cdispec.ContainerEdits :=
  let threadIDs : List String := results.enum.foldl (fun threadIDs ir =>
    (o.rangeOrder ir.1 s.allocatable).foldl (fun threadIDs ka =>
      if ir.2.Device = ka.2.Name then threadIDs ++ [toString ka.2.id] else threadIDs)
      threadIDs) []
  let envs : List String := ["CPU_" ++ claim.Name ++ "=" ++ String.intercalate "," threadIDs]
  .ok { Env := envs }

/-- Method `DeviceState.prepareDevices` (state.go 174-200). -/
def DeviceState.prepareDevices (d : Deps) (s : DeviceState) (o : Oracle)
    (claim : resourceapi.ResourceClaim) :
    Except String (PreparedDevices × cdispec.ContainerEdits) :=
  match claim.Status.Allocation with
  | none => .error "claim not yet allocated"
  | some allocation =>
    let driverResults := DeviceState.filterDevicesForDriver allocation.Devices.Results GroupName
    match s.applyConfig o claim driverResults with
    | .error err => .error ("error applying CPU config: " ++ err)
    | .ok containerEdit =>
      let preparedDevices : PreparedDevices := driverResults.foldl
        (fun preparedDevices result =>
          let device : PreparedDevice :=
            { Device :=
                { RequestNames := [result.Request]
                  PoolName := result.Pool
                  DeviceName := result.Device
                  CDIDeviceIDs := CDIHandler.GetClaimDevices d claim.UID [result.Device] }
              ContainerEdits := none }
          preparedDevices.append device) none
      .ok (preparedDevices, containerEdit)

/-- Method `DeviceState.Prepare` (state.go 110-141). The result is the pair of the Go
return values (the handles, or the error) and the state after the call. -/
def DeviceState.Prepare (d : Deps) (o : Oracle) (s : DeviceState)
    (claim : resourceapi.ResourceClaim) : Except String (List drapbv1.Device) × DeviceState :=
  let claimUID := claim.UID
  let s := s.record .GetCheckpoint
  match s.checkpointManager.GetCheckpoint o with
  | .error err => (.error ("unable to sync from checkpoint: " ++ err), s)
  | .ok checkpoint =>
    let preparedClaims := checkpoint.V1.PreparedClaims
    match preparedClaims.index claimUID with
    | some pds => (.ok (PreparedDevices.GetDevices (some pds)), s)
    | none =>
      let s := s.record (.prepareDevices claimUID)
      match s.prepareDevices d o claim with
      | .error err => (.error ("prepare failed: " ++ err), s)
      | .ok (preparedDevices, containerEdit) =>
        let s := s.record (.CreateClaimSpecFile claimUID)
        match s.cdi.CreateClaimSpecFile d o claimUID preparedDevices containerEdit with
        | (.error err, cdi) =>
          (.error ("unable to create CDI spec file for claim: " ++ err), { s with cdi := cdi })
        | (.ok (), cdi) =>
          let s := { s with cdi := cdi }
          let preparedClaims := preparedClaims.set claimUID preparedDevices
          let checkpoint : Checkpoint := { V1 := { PreparedClaims := preparedClaims } }
          let s := s.record .CreateCheckpoint
          match s.checkpointManager.CreateCheckpoint o checkpoint with
          | (.error err, cm) =>
            (.error ("unable to sync to checkpoint: " ++ err), { s with checkpointManager := cm })
          | (.ok (), cm) =>
            (.ok (preparedClaims.index claimUID).GetDevices, { s with checkpointManager := cm })

/-- Method `DeviceState.Unprepare` (state.go 143-172). The result is the pair of the Go
return value (nil, or the error) and the state after the call. -/
def DeviceState.Unprepare (d : Deps) (o : Oracle) (s : DeviceState) (claimUID : String) :
    Except String Unit × DeviceState :=
  let s := s.record .GetCheckpoint
  match s.checkpointManager.GetCheckpoint o with
  | .error err => (.error ("unable to sync from checkpoint: " ++ err), s)
  | .ok checkpoint =>
    let preparedClaims := checkpoint.V1.PreparedClaims
    match preparedClaims.index claimUID with
    | none => (.ok (), s)
    | some pds =>
      let s := s.record (.unprepareDevices claimUID)
      match DeviceState.unprepareDevices claimUID (some pds) with
      | .error err => (.error ("unprepare failed: " ++ err), s)
      | .ok () =>
        let s := s.record (.DeleteClaimSpecFile claimUID)
        match s.cdi.DeleteClaimSpecFile d o claimUID with
        | (.error err, cdi) =>
          (.error ("unable to delete CDI spec file for claim: " ++ err), { s with cdi := cdi })
        | (.ok (), cdi) =>
          let s := { s with cdi := cdi }
          let preparedClaims := preparedClaims.delete claimUID
          let checkpoint : Checkpoint := { V1 := { PreparedClaims := preparedClaims } }
          let s := s.record .CreateCheckpoint
          match s.checkpointManager.CreateCheckpoint o checkpoint with
          | (.error err, cm) =>
            (.error ("unable to sync to checkpoint: " ++ err), { s with checkpointManager := cm })
          | (.ok (), cm) => (.ok (), { s with checkpointManager := cm })

/-! ## Concrete values used in examples -/

/-- The CDI library functions as the CDI library defines them, with `DriverName` taken to be
the group name. `MinimumRequiredVersion` has no failing path. -/
def stdDeps : Deps :=
  { DriverName := "cpu.nvidia.com"
    QualifiedName := fun vendor cls name => vendor ++ "/" ++ cls ++ "=" ++ name
    GenerateTransientSpecName := fun vendor cls transientID =>
      vendor ++ "-" ++ cls ++ "_" ++
        String.mk (transientID.data.map (fun c => if c = '/' then '_' else c))
    MinimumRequiredVersion := fun _ => .ok "0.3.0" }

/-- The oracle of a call in which no store operation fails and every range statement visits
the map entries in the order in which they were inserted. -/
def okOracle : Oracle :=
  { GetCheckpoint := none
    WriteSpec := none
    RemoveSpec := none
    CreateCheckpoint := none
    rangeOrder := fun _ m => m }

/-- The inventory: the map that `enumerateAllCPUDevices` returns. -/
def inventory : AllocatableDevices :=
  match enumerateAllCPUDevices with
  | .ok m => m
  | .error _ => []

/-- The state that `NewDeviceState` leaves on a fresh node: the inventory of
`enumerateAllCPUDevices`, an empty snapshot and no claim descriptor. -/
def initState : DeviceState :=
  { cdi := { cache := fun _ => none }
    allocatable := inventory
    checkpointManager := { stored := newCheckpoint.MarshalCheckpoint }
    calls := [] }

/-- The oracle of a call in which no store operation fails and every range statement visits
the map entries in the reverse of the order in which they were inserted. -/
def reverseOracle : Oracle :=
  { GetCheckpoint := none
    WriteSpec := none
    RemoveSpec := none
    CreateCheckpoint := none
    rangeOrder := fun _ m => m.reverse }

/-- The claim of the concrete scenario: uid `abc`, one result for `cpu-5` of this driver. -/
def claimAbc : resourceapi.ResourceClaim :=
  { Name := "c"
    UID := "abc"
    Status := { Allocation := some { Devices := { Results :=
      [{ Request := "r", Driver := "cpu.nvidia.com", Pool := "p", Device := "cpu-5" }] } } } }

/-- An allocated claim, uid `xyz`, whose only result is owned by another driver. -/
def claimOther : resourceapi.ResourceClaim :=
  { Name := "c"
    UID := "xyz"
    Status := { Allocation := some { Devices := { Results :=
      [{ Request := "r", Driver := "gpu.example.com", Pool := "p", Device := "gpu-0" }] } } } }

/-- The oracle of a call in which only the checkpoint write fails. -/
def writeFailOracle : Oracle :=
  { GetCheckpoint := none
    WriteSpec := none
    RemoveSpec := none
    CreateCheckpoint := some "no space left on device"
    rangeOrder := fun _ m => m }

/-- The oracle of a call in which only writing a CDI spec fails. -/
def publishFailOracle : Oracle :=
  { GetCheckpoint := none
    WriteSpec := some "no space left on device"
    RemoveSpec := none
    CreateCheckpoint := none
    rangeOrder := fun _ m => m }

/-- The handle of `claimAbc` for its one result. -/
def handleAbc : drapbv1.Device :=
  { RequestNames := ["r"]
    PoolName := "p"
    DeviceName := "cpu-5"
    CDIDeviceIDs := ["k8s.cpu.nvidia.com/cpu=common", "k8s.cpu.nvidia.com/cpu=abc-cpu-5"] }

/-- The state reached from `initState` by a successful `Prepare(claimOther)`. -/
def otherPrepared : DeviceState :=
  (DeviceState.Prepare stdDeps okOracle initState claimOther).2

/-! ## Vocabulary of the statements -/

/-- Name of the descriptor artifact of a claim, as both `CreateClaimSpecFile` and
`DeleteClaimSpecFile` compute it. -/
def claimSpecName (d : Deps) (claimUID : String) : String :=
  d.GenerateTransientSpecName (cdiVendor d) cdiClass claimUID

/-- The handle that the claims describe for one allocation result `r` of claim `claimUID`. -/
def handleOf (d : Deps) (claimUID : String) (r : resourceapi.DeviceRequestAllocationResult) :
    drapbv1.Device :=
  { RequestNames := [r.Request]
    PoolName := r.Pool
    DeviceName := r.Device
    CDIDeviceIDs := CDIHandler.GetClaimDevices d claimUID [r.Device] }

/-- A claim descriptor that lists no devices: its version and its environment edits. -/
def specWithoutDevices (d : Deps) (version : String) (env : List String) : cdispec.Spec :=
  { Version := version, Kind := cdiKind d, Devices := [], ContainerEdits := { Env := env } }

/-- The `id` attribute of the device of the map `m` whose name is `name`, if there is one. -/
def idAttribute (m : AllocatableDevices) (name : String) : Option Int :=
  (m.find? (fun ka => ka.2.Name = name)).map (fun ka => ka.2.id)

/-- The durable snapshot of a state: the `PreparedClaims` map that the blob in the
checkpoint slot decodes to. -/
def DeviceState.snapshot (s : DeviceState) : PreparedClaims :=
  (Checkpoint.UnmarshalCheckpoint s.checkpointManager.stored).V1.PreparedClaims

/-- No store operation fails in the call that the oracle describes. -/
def Oracle.noStoreFailure (o : Oracle) : Prop :=
  o.GetCheckpoint = none ∧ o.WriteSpec = none ∧ o.RemoveSpec = none ∧ o.CreateCheckpoint = none

/-- One call on the state: `Prepare` of a claim or `Unprepare` of a claim id, together with
the oracle of that call. -/
inductive Step where
  | prepare (o : Oracle) (claim : resourceapi.ResourceClaim)
  | unprepare (o : Oracle) (claimUID : String)

/-- The oracle of a step. -/
def Step.oracle : Step → Oracle
  | .prepare o _ => o
  | .unprepare o _ => o

/-- The claim id a step is about. -/
def Step.claimUID : Step → String
  | .prepare _ claim => claim.UID
  | .unprepare _ claimUID => claimUID

/-- The state after one step. -/
def DeviceState.step (d : Deps) (s : DeviceState) : Step → DeviceState
  | .prepare o claim => (DeviceState.Prepare d o s claim).2
  | .unprepare o claimUID => (DeviceState.Unprepare d o s claimUID).2

/-- The state after a sequence of steps, run one after the other. -/
def DeviceState.run (d : Deps) (s : DeviceState) (steps : List Step) : DeviceState :=
  steps.foldl (DeviceState.step d) s

/-- The `PreparedDevices` value that `prepareDevices` builds for the matching results. -/
def derivedDevices (d : Deps) (claimUID : String)
    (results : List resourceapi.DeviceRequestAllocationResult) : PreparedDevices :=
  if (results.filter (fun r => r.Driver = GroupName)).isEmpty then none
  else some ((results.filter (fun r => r.Driver = GroupName)).map
    (fun r => { Device := handleOf d claimUID r, ContainerEdits := none }))

/-- The edits that `applyConfig` returns (it has no failing path). -/
def editsOf (s : DeviceState) (o : Oracle) (claim : resourceapi.ResourceClaim)
    (results : List resourceapi.DeviceRequestAllocationResult) : cdispec.ContainerEdits :=
  match s.applyConfig o claim results with
  | .ok e => e
  | .error _ => { Env := [] }

/-- The spec that `CreateClaimSpecFile` has built when it asks for the minimum version. -/
def draftSpec (d : Deps) (claimUID : String) (devices : PreparedDevices) : cdispec.Spec :=
  { Version := ""
    Kind := cdiKind d
    Devices := (devices.getD []).map (fun device =>
      { Name := claimUID ++ "-" ++ device.Device.DeviceName, ContainerEdits := { Env := [] } })
    ContainerEdits := { Env := [] } }

/-- The spec that `CreateClaimSpecFile` hands to `WriteSpec`. -/
def claimSpec (d : Deps) (claimUID : String) (devices : PreparedDevices) (minVersion : String)
    (containerEdits : cdispec.ContainerEdits) : cdispec.Spec :=
  { Version := minVersion
    Kind := cdiKind d
    Devices := (devices.getD []).map (fun device =>
      { Name := claimUID ++ "-" ++ device.Device.DeviceName, ContainerEdits := { Env := [] } })
    ContainerEdits := containerEdits }

/-- The outcome of the publish of `CreateClaimSpecFile`: the error it returns, or the spec
it has written. -/
def publishOutcome (d : Deps) (o : Oracle) (claimUID : String) (devices : PreparedDevices)
    (containerEdits : cdispec.ContainerEdits) : Except String cdispec.Spec :=
  match d.MinimumRequiredVersion (draftSpec d claimUID devices) with
  | .error err => .error ("failed to get minimum required CDI spec version: " ++ err)
  | .ok minVersion =>
    match validateSpec (claimSpec d claimUID devices minVersion containerEdits) with
    | .error err => .error err
    | .ok () =>
      match o.WriteSpec with
      | some err => .error err
      | none => .ok (claimSpec d claimUID devices minVersion containerEdits)

/-- Agreement of the two stores on the claim ids of `U`. -/
def storesAgreeOn (d : Deps) (U : Set String) (s : DeviceState) : Prop :=
  ∀ k ∈ U, (s.snapshot k).isSome = (s.cdi.cache (claimSpecName d k)).isSome

/-! ## api.go -/

/-- The constant `Version` of api.go. -/
def Version : String := "v1alpha1"

/-- The constant `CpuConfigKind` of api.go. -/
def CpuConfigKind : String := "CpuConfig"

/-- The struct `metav1.TypeMeta`. -/
structure metav1.TypeMeta where
  APIVersion : String
  Kind : String
  deriving DecidableEq, Repr

/-- The struct `CpuConfig` (api.go 43-46); `Count` is a pointer, `none` is nil. -/
structure CpuConfig where
  TypeMeta : metav1.TypeMeta
  Count : Option Int
  deriving DecidableEq, Repr

/-- Function `DefaultCpuConfig` (api.go 49-57); the result is a pointer to a new config. -/
def DefaultCpuConfig : Option CpuConfig :=
  some
    { TypeMeta := { APIVersion := GroupName ++ "/" ++ Version, Kind := CpuConfigKind }
      Count := some 16 }

/-- Method `CpuConfig.Normalize` (api.go 60-65) on the pointer receiver `c`, `none` being
nil. The result is the pair of the returned error and the config behind `c` after the call;
the body never writes through `c`. -/
def CpuConfig.Normalize (c : Option CpuConfig) : Except String Unit × Option CpuConfig :=
  match c with
  | none => (.error "config is 'nil'", c)
  | some _ => (.ok (), c)

/-- Method `CpuConfig.Validate` (api.go 68-73) on the pointer receiver `c`, `none` being
nil. The result is the pair of the returned error and the config behind `c` after the call;
the body never writes through `c`. -/
def CpuConfig.Validate (c : Option CpuConfig) : Except String Unit × Option CpuConfig :=
  match c with
  | none => (.error "config is 'nil'", c)
  | some _ => (.ok (), c)

/-! ## Further vocabulary of the statements -/

/-- Go index expression `m[k]` with the comma-ok form on an `AllocatableDevices` map. -/
def AllocatableDevices.get? (m : AllocatableDevices) (k : String) :
    Option resourceapi.Device :=
  (m.find? (fun e => e.1 = k)).map (fun e => e.2)

/-- The unit that the claims describe for thread `t` of the inventory. -/
def unitOf (t : Nat) : resourceapi.Device :=
  { Name := "cpu-" ++ toString t
    architecture := "amd64"
    id := t
    parentID := t % 16
    numa := if t % 16 < 8 then 0 else 1
    driverVersion := "1.0.0"
    memory := "80Gi" }

/-- An allocated claim, uid `u99`, with one result for the inventory device `cpu-5` and one
result of this driver for `cpu-99`, which is not in the inventory. -/
def claimUnknown : resourceapi.ResourceClaim :=
  { Name := "c"
    UID := "u99"
    Status := { Allocation := some { Devices := { Results :=
      [{ Request := "r1", Driver := "cpu.nvidia.com", Pool := "p", Device := "cpu-5" },
       { Request := "r2", Driver := "cpu.nvidia.com", Pool := "p", Device := "cpu-99" }] } } } }

/-- The oracle of a call in which only removing a CDI spec fails. -/
def deleteFailOracle : Oracle :=
  { GetCheckpoint := none
    WriteSpec := none
    RemoveSpec := some "permission denied"
    CreateCheckpoint := none
    rangeOrder := fun _ m => m }

/-! ## Further concrete values -/

/-- An allocated claim, uid `a/b`, whose only result is owned by another driver. -/
def claimSlash : resourceapi.ResourceClaim :=
  { Name := "n1"
    UID := "a/b"
    Status := { Allocation := some { Devices := { Results :=
      [{ Request := "r", Driver := "gpu.example.com", Pool := "p", Device := "gpu-0" }] } } } }

/-- An allocated claim, uid `a_b`, whose only result is owned by another driver. -/
def claimUnderscore : resourceapi.ResourceClaim :=
  { Name := "n2"
    UID := "a_b"
    Status := { Allocation := some { Devices := { Results :=
      [{ Request := "r", Driver := "gpu.example.com", Pool := "p", Device := "gpu-1" }] } } } }

/-- An allocated claim, uid `uvw`, whose only result is owned by another driver. -/
def claimOtherTwo : resourceapi.ResourceClaim :=
  { Name := "c2"
    UID := "uvw"
    Status := { Allocation := some { Devices := { Results :=
      [{ Request := "r", Driver := "gpu.example.com", Pool := "p", Device := "gpu-1" }] } } } }

/-! ## Lemmas -/

theorem foldl_append_singleton {α β : Type} (f : α → β) (l : List α) (init : List β) :
    l.foldl (fun acc x => acc ++ [f x]) init = init ++ l.map f := by
  induction l generalizing init with
  | nil => simp
  | cons x xs ih => simp [ih]

theorem foldl_append_if {α : Type} (p : α → Prop) [DecidablePred p] (l : List α)
    (init : List α) :
    l.foldl (fun acc x => if p x then acc ++ [x] else acc) init = init ++ l.filter p := by
  induction l generalizing init with
  | nil => simp
  | cons x xs ih =>
    by_cases hx : p x <;> simp [ih, hx, List.filter_cons]

theorem GetDevices_eq_map (pds : PreparedDevices) :
    pds.GetDevices = (pds.getD []).map (fun pd => pd.Device) := by
  unfold PreparedDevices.GetDevices
  rw [foldl_append_singleton]
  simp

theorem filterDevicesForDriver_eq_filter
    (l : List resourceapi.DeviceRequestAllocationResult) (driverName : String) :
    DeviceState.filterDevicesForDriver l driverName
      = l.filter (fun r => r.Driver = driverName) := by
  unfold DeviceState.filterDevicesForDriver
  rw [foldl_append_if (fun r : resourceapi.DeviceRequestAllocationResult => r.Driver = driverName)]
  simp

theorem foldl_PreparedDevices_append {α : Type} (f : α → PreparedDevice) (l : List α)
    (init : PreparedDevices) :
    l.foldl (fun acc x => PreparedDevices.append acc (f x)) init
      = if l.isEmpty then init else some (init.getD [] ++ l.map f) := by
  induction l generalizing init with
  | nil => simp
  | cons x xs ih =>
    rw [List.foldl_cons, ih]
    cases xs <;> simp [PreparedDevices.append]

theorem derivedDevices_GetDevices (d : Deps) (claimUID : String)
    (results : List resourceapi.DeviceRequestAllocationResult) :
    (derivedDevices d claimUID results).GetDevices
      = (results.filter (fun r => r.Driver = GroupName)).map (handleOf d claimUID) := by
  rw [GetDevices_eq_map]
  unfold derivedDevices
  split
  · rename_i h
    rw [List.isEmpty_iff] at h
    simp [h]
  · simp [List.map_map, Function.comp_def]

/-- What `prepareDevices` returns: an error for a claim without allocation, and otherwise the
derived devices together with the edits of `applyConfig`. -/
theorem prepareDevices_eq (d : Deps) (s : DeviceState) (o : Oracle)
    (claim : resourceapi.ResourceClaim) :
    s.prepareDevices d o claim =
      match claim.Status.Allocation with
      | none => .error "claim not yet allocated"
      | some allocation =>
        match s.applyConfig o claim
            (allocation.Devices.Results.filter (fun r => r.Driver = GroupName)) with
        | .error err => .error ("error applying CPU config: " ++ err)
        | .ok containerEdit =>
          .ok (derivedDevices d claim.UID allocation.Devices.Results, containerEdit) := by
  unfold DeviceState.prepareDevices
  cases hA : claim.Status.Allocation with
  | none => rfl
  | some allocation =>
    simp only [filterDevicesForDriver_eq_filter]
    cases hC : s.applyConfig o claim
        (allocation.Devices.Results.filter (fun r => r.Driver = GroupName)) with
    | error err => rfl
    | ok containerEdit =>
      simp only []
      rw [foldl_PreparedDevices_append]
      unfold derivedDevices handleOf
      simp

theorem applyConfig_eq_ok (s : DeviceState) (o : Oracle) (claim : resourceapi.ResourceClaim)
    (results : List resourceapi.DeviceRequestAllocationResult) :
    s.applyConfig o claim results = .ok (editsOf s o claim results) := rfl

theorem foldl_spec_devices {α : Type} (g : α → cdispec.Device) (l : List α)
    (spec : cdispec.Spec) :
    l.foldl (fun spec x => { spec with Devices := spec.Devices ++ [g x] }) spec
      = { spec with Devices := spec.Devices ++ l.map g } := by
  induction l generalizing spec with
  | nil => simp
  | cons x xs ih => simp [ih]

/-- Decoding the encoding of a snapshot gives the snapshot back. -/
theorem UnmarshalCheckpoint_MarshalCheckpoint (cp : Checkpoint) :
    Checkpoint.UnmarshalCheckpoint cp.MarshalCheckpoint = cp := rfl

/-- The library accepts the spec of a claim without devices. -/
theorem validateSpec_of_no_devices (d : Deps) (claimUID : String) (devices : PreparedDevices)
    (minVersion : String) (containerEdits : cdispec.ContainerEdits)
    (hdevices : devices.getD [] = []) :
    validateSpec (claimSpec d claimUID devices minVersion containerEdits) = .ok () := by
  simp [validateSpec, claimSpec, hdevices]

/-- The library refuses the spec of a claim with a device: the first device has no edits. -/
theorem validateSpec_of_device (d : Deps) (claimUID : String) (devices : PreparedDevices)
    (minVersion : String) (containerEdits : cdispec.ContainerEdits)
    (pd : PreparedDevice) (rest : List PreparedDevice)
    (hdevices : devices.getD [] = pd :: rest) :
    validateSpec (claimSpec d claimUID devices minVersion containerEdits)
      = .error (emptyEditsError (claimUID ++ "-" ++ pd.Device.DeviceName)) := by
  simp [validateSpec, claimSpec, hdevices]

/-- A publish that succeeds is the publish of a claim without devices. -/
theorem publishOutcome_ok_inv (d : Deps) (o : Oracle) (claimUID : String)
    (devices : PreparedDevices) (containerEdits : cdispec.ContainerEdits)
    (spec : cdispec.Spec)
    (hok : publishOutcome d o claimUID devices containerEdits = .ok spec) :
    devices.getD [] = [] ∧ o.WriteSpec = none ∧
    ∃ v, d.MinimumRequiredVersion (draftSpec d claimUID devices) = .ok v ∧
      spec = claimSpec d claimUID devices v containerEdits := by
  unfold publishOutcome at hok
  cases hM : d.MinimumRequiredVersion (draftSpec d claimUID devices) with
  | error err => simp [hM] at hok
  | ok v =>
    simp only [hM] at hok
    cases hD : devices.getD [] with
    | cons pd rest =>
      rw [validateSpec_of_device d claimUID devices v containerEdits pd rest hD] at hok
      simp at hok
    | nil =>
      rw [validateSpec_of_no_devices d claimUID devices v containerEdits hD] at hok
      cases hW : o.WriteSpec with
      | some err => simp [hW] at hok
      | none =>
        simp only [hW] at hok
        exact ⟨rfl, rfl, v, rfl, (Except.ok.inj hok).symm⟩

/-- The publish of a claim without devices succeeds when the minimum version is found and
the write does not fail. -/
theorem publishOutcome_of_no_devices (d : Deps) (o : Oracle) (claimUID : String)
    (devices : PreparedDevices) (containerEdits : cdispec.ContainerEdits) (v : String)
    (hdevices : devices.getD [] = [])
    (hversion : d.MinimumRequiredVersion (draftSpec d claimUID devices) = .ok v)
    (hwrite : o.WriteSpec = none) :
    publishOutcome d o claimUID devices containerEdits
      = .ok (claimSpec d claimUID devices v containerEdits) := by
  unfold publishOutcome
  simp only [hversion, validateSpec_of_no_devices d claimUID devices v containerEdits hdevices,
    hwrite]

/-- The publish of a claim with a device fails, whatever the oracle. -/
theorem publishOutcome_of_device (d : Deps) (o : Oracle) (claimUID : String)
    (devices : PreparedDevices) (containerEdits : cdispec.ContainerEdits)
    (pd : PreparedDevice) (rest : List PreparedDevice)
    (hdevices : devices.getD [] = pd :: rest) :
    ∃ err, publishOutcome d o claimUID devices containerEdits = .error err := by
  unfold publishOutcome
  cases hM : d.MinimumRequiredVersion (draftSpec d claimUID devices) with
  | error err => exact ⟨_, rfl⟩
  | ok v =>
    simp only []
    rw [validateSpec_of_device d claimUID devices v containerEdits pd rest hdevices]
    exact ⟨_, rfl⟩

/-- The two outcomes of `CreateClaimSpecFile`. -/
theorem CreateClaimSpecFile_eq (d : Deps) (cdi : CDIHandler) (o : Oracle) (claimUID : String)
    (devices : PreparedDevices) (containerEdits : cdispec.ContainerEdits) :
    cdi.CreateClaimSpecFile d o claimUID devices containerEdits =
      match publishOutcome d o claimUID devices containerEdits with
      | .error err => (.error err, cdi)
      | .ok spec =>
        (.ok (), CDIHandler.mk (Function.update cdi.cache (claimSpecName d claimUID)
          (some spec))) := by
  unfold CDIHandler.CreateClaimSpecFile publishOutcome
  simp only [foldl_spec_devices, List.nil_append, draftSpec, claimSpec, claimSpecName,
    CDIHandler.WriteSpec]
  cases d.MinimumRequiredVersion _ with
  | error err => rfl
  | ok minVersion =>
    simp only []
    cases validateSpec _ with
    | error err => rfl
    | ok u =>
      cases o.WriteSpec with
      | some err => rfl
      | none => rfl

/-- Normal form of `Prepare`: the outcome and the state after the call on each path. -/
theorem Prepare_eq (d : Deps) (o : Oracle) (s : DeviceState)
    (claim : resourceapi.ResourceClaim) :
    DeviceState.Prepare d o s claim =
      match o.GetCheckpoint with
      | some err =>
        (.error ("unable to sync from checkpoint: " ++ err), s.record .GetCheckpoint)
      | none =>
        match s.snapshot.index claim.UID with
        | some pds => (.ok (PreparedDevices.GetDevices (some pds)), s.record .GetCheckpoint)
        | none =>
          match claim.Status.Allocation with
          | none =>
            (.error ("prepare failed: " ++ "claim not yet allocated"),
              { s with calls := s.calls ++ [.GetCheckpoint, .prepareDevices claim.UID] })
          | some allocation =>
            let pds := derivedDevices d claim.UID allocation.Devices.Results
            let edits := editsOf s o claim
              (allocation.Devices.Results.filter (fun r => r.Driver = GroupName))
            match publishOutcome d o claim.UID pds edits with
            | .error err =>
              (.error ("unable to create CDI spec file for claim: " ++ err),
                { s with calls := s.calls ++
                    [.GetCheckpoint, .prepareDevices claim.UID,
                      .CreateClaimSpecFile claim.UID] })
            | .ok spec =>
              let cdi : CDIHandler :=
                CDIHandler.mk (Function.update s.cdi.cache (claimSpecName d claim.UID)
                  (some spec))
              let calls := s.calls ++
                [.GetCheckpoint, .prepareDevices claim.UID, .CreateClaimSpecFile claim.UID,
                  .CreateCheckpoint]
              match o.CreateCheckpoint with
              | some err =>
                (.error ("unable to sync to checkpoint: " ++ err),
                  { s with cdi := cdi, calls := calls })
              | none =>
                (.ok pds.GetDevices,
                  { s with
                    cdi := cdi
                    checkpointManager := CheckpointManager.mk (Checkpoint.MarshalCheckpoint
                      (Checkpoint.mk (CheckpointV1.mk (s.snapshot.set claim.UID pds))))
                    calls := calls }) := by
  unfold DeviceState.Prepare
  simp only [CheckpointManager.GetCheckpoint, DeviceState.record]
  cases hG : o.GetCheckpoint with
  | some err => rfl
  | none =>
    simp only [DeviceState.snapshot]
    cases hI : PreparedClaims.index
        (Checkpoint.UnmarshalCheckpoint s.checkpointManager.stored).V1.PreparedClaims
        claim.UID with
    | some pds => rfl
    | none =>
      simp only [prepareDevices_eq, applyConfig_eq_ok]
      cases hA : claim.Status.Allocation with
      | none => simp
      | some allocation =>
        simp only [CreateClaimSpecFile_eq]
        have hedits : editsOf
            { cdi := s.cdi, allocatable := s.allocatable,
              checkpointManager := s.checkpointManager,
              calls := s.calls ++ [Call.GetCheckpoint] ++ [Call.prepareDevices claim.UID] }
            o claim (allocation.Devices.Results.filter (fun r => r.Driver = GroupName))
            = editsOf s o claim
                (allocation.Devices.Results.filter (fun r => r.Driver = GroupName)) := rfl
        simp only [hedits]
        cases hP : publishOutcome d o claim.UID
            (derivedDevices d claim.UID allocation.Devices.Results)
            (editsOf s o claim
              (allocation.Devices.Results.filter (fun r => r.Driver = GroupName))) with
        | error err => simp
        | ok spec =>
          simp only [CheckpointManager.CreateCheckpoint]
          cases hC : o.CreateCheckpoint with
          | some err => simp
          | none => simp [PreparedClaims.index, PreparedClaims.set]

/-- Normal form of `Unprepare`: the outcome and the state after the call on each path. -/
theorem Unprepare_eq (d : Deps) (o : Oracle) (s : DeviceState) (claimUID : String) :
    DeviceState.Unprepare d o s claimUID =
      match o.GetCheckpoint with
      | some err =>
        (.error ("unable to sync from checkpoint: " ++ err), s.record .GetCheckpoint)
      | none =>
        match s.snapshot.index claimUID with
        | none => (.ok (), s.record .GetCheckpoint)
        | some _ =>
          match o.RemoveSpec with
          | some err =>
            (.error ("unable to delete CDI spec file for claim: " ++ err),
              { s with calls := s.calls ++
                  [.GetCheckpoint, .unprepareDevices claimUID, .DeleteClaimSpecFile claimUID] })
          | none =>
            let cdi : CDIHandler :=
              CDIHandler.mk (Function.update s.cdi.cache (claimSpecName d claimUID) none)
            let calls := s.calls ++
              [.GetCheckpoint, .unprepareDevices claimUID, .DeleteClaimSpecFile claimUID,
                .CreateCheckpoint]
            match o.CreateCheckpoint with
            | some err =>
              (.error ("unable to sync to checkpoint: " ++ err),
                { s with cdi := cdi, calls := calls })
            | none =>
              (.ok (),
                { s with
                  cdi := cdi
                  checkpointManager := CheckpointManager.mk (Checkpoint.MarshalCheckpoint
                    (Checkpoint.mk (CheckpointV1.mk (s.snapshot.delete claimUID))))
                  calls := calls }) := by
  unfold DeviceState.Unprepare
  simp only [CheckpointManager.GetCheckpoint, DeviceState.record]
  cases hG : o.GetCheckpoint with
  | some err => rfl
  | none =>
    simp only [DeviceState.snapshot]
    cases hI : PreparedClaims.index
        (Checkpoint.UnmarshalCheckpoint s.checkpointManager.stored).V1.PreparedClaims
        claimUID with
    | none => rfl
    | some pds =>
      simp only [DeviceState.unprepareDevices, CDIHandler.DeleteClaimSpecFile,
        CDIHandler.RemoveSpec, CheckpointManager.CreateCheckpoint, claimSpecName]
      cases hR : o.RemoveSpec with
      | some err => simp
      | none =>
        cases hC : o.CreateCheckpoint with
        | some err => simp
        | none => simp

theorem index_of_absent (m : PreparedClaims) (k : String) (h : m k = none) :
    m.index k = none := by
  simp [PreparedClaims.index, h]

/-- What a successful `Prepare` did: either the claim was bound and nothing but the record of
calls changed, or it was derived, published and stored. -/
theorem Prepare_ok_cases (d : Deps) (o : Oracle) (s : DeviceState)
    (claim : resourceapi.ResourceClaim) (handles : List drapbv1.Device)
    (hok : (DeviceState.Prepare d o s claim).1 = .ok handles) :
    (∃ pds, s.snapshot.index claim.UID = some pds ∧
      handles = PreparedDevices.GetDevices (some pds) ∧
      (DeviceState.Prepare d o s claim).2 = s.record .GetCheckpoint) ∨
    (s.snapshot.index claim.UID = none ∧ ∃ allocation v,
      claim.Status.Allocation = some allocation ∧
      handles = (derivedDevices d claim.UID allocation.Devices.Results).GetDevices ∧
      (DeviceState.Prepare d o s claim).2.snapshot
        = s.snapshot.set claim.UID (derivedDevices d claim.UID allocation.Devices.Results) ∧
      (DeviceState.Prepare d o s claim).2.cdi.cache
        = Function.update s.cdi.cache (claimSpecName d claim.UID)
            (some (claimSpec d claim.UID
              (derivedDevices d claim.UID allocation.Devices.Results) v
              (editsOf s o claim
                (allocation.Devices.Results.filter (fun r => r.Driver = GroupName)))))) := by
  rw [Prepare_eq] at hok ⊢
  cases hG : o.GetCheckpoint with
  | some err => simp [hG] at hok
  | none =>
    simp only [hG] at hok ⊢
    cases hI : s.snapshot.index claim.UID with
    | some pds =>
      simp only [hI] at hok ⊢
      exact Or.inl ⟨pds, rfl, (Except.ok.inj hok).symm, trivial⟩
    | none =>
      simp only [hI] at hok ⊢
      cases hA : claim.Status.Allocation with
      | none => simp [hA] at hok
      | some allocation =>
        simp only [hA] at hok ⊢
        cases hP : publishOutcome d o claim.UID
            (derivedDevices d claim.UID allocation.Devices.Results)
            (editsOf s o claim
              (allocation.Devices.Results.filter (fun r => r.Driver = GroupName))) with
        | error err => simp [hP] at hok
        | ok spec =>
          obtain ⟨-, -, v, -, hspec⟩ := publishOutcome_ok_inv d o claim.UID _ _ spec hP
          simp only [hP] at hok ⊢
          cases hC : o.CreateCheckpoint with
          | some err => simp [hC] at hok
          | none =>
            simp only [hC] at hok ⊢
            refine Or.inr ⟨trivial, allocation, v, ?_,
              (Except.ok.inj hok).symm, ?_, ?_⟩
            · rfl
            · rfl
            · rw [hspec]

/-- A call of `Prepare` that returns an error leaves the checkpoint slot as it was. -/
theorem Prepare_error_checkpoint (d : Deps) (o : Oracle) (s : DeviceState)
    (claim : resourceapi.ResourceClaim) (err : String)
    (herr : (DeviceState.Prepare d o s claim).1 = .error err) :
    (DeviceState.Prepare d o s claim).2.checkpointManager = s.checkpointManager := by
  rw [Prepare_eq] at herr ⊢
  cases hG : o.GetCheckpoint with
  | some e => simp only [hG]; rfl
  | none =>
    simp only [hG] at herr ⊢
    cases hI : s.snapshot.index claim.UID with
    | some pds => simp [hI] at herr
    | none =>
      simp only [hI] at herr ⊢
      cases hA : claim.Status.Allocation with
      | none => rfl
      | some allocation =>
        simp only [hA] at herr ⊢
        cases hP : publishOutcome d o claim.UID
            (derivedDevices d claim.UID allocation.Devices.Results)
            (editsOf s o claim
              (allocation.Devices.Results.filter (fun r => r.Driver = GroupName))) with
        | error e => rfl
        | ok spec =>
          simp only [hP] at herr ⊢
          cases hC : o.CreateCheckpoint with
          | some e => rfl
          | none => simp [hC] at herr

/-- A call of `Unprepare` that returns an error leaves the checkpoint slot as it was. -/
theorem Unprepare_error_checkpoint (d : Deps) (o : Oracle) (s : DeviceState)
    (claimUID : String) (err : String)
    (herr : (DeviceState.Unprepare d o s claimUID).1 = .error err) :
    (DeviceState.Unprepare d o s claimUID).2.checkpointManager = s.checkpointManager := by
  rw [Unprepare_eq] at herr ⊢
  cases hG : o.GetCheckpoint with
  | some e => simp only [hG]; rfl
  | none =>
    simp only [hG] at herr ⊢
    cases hI : s.snapshot.index claimUID with
    | none => simp [hI] at herr
    | some pds =>
      simp only [hI] at herr ⊢
      cases hR : o.RemoveSpec with
      | some e => rfl
      | none =>
        simp only [hR] at herr ⊢
        cases hC : o.CreateCheckpoint with
        | some e => rfl
        | none => simp [hC] at herr

/-- The effect of `Prepare` on the two stores when no store operation fails: none, or the
entry and the artifact of the claim are both written. -/
theorem Prepare_stores_of_noStoreFailure (d : Deps) (o : Oracle) (s : DeviceState)
    (claim : resourceapi.ResourceClaim) (ho : o.noStoreFailure) :
    ((DeviceState.Prepare d o s claim).2.snapshot = s.snapshot ∧
      (DeviceState.Prepare d o s claim).2.cdi.cache = s.cdi.cache) ∨
    (∃ pds spec,
      (DeviceState.Prepare d o s claim).2.snapshot = s.snapshot.set claim.UID pds ∧
      (DeviceState.Prepare d o s claim).2.cdi.cache
        = Function.update s.cdi.cache (claimSpecName d claim.UID) (some spec)) := by
  obtain ⟨hG, hW, _, hC⟩ := ho
  rw [Prepare_eq]
  simp only [hG, hC]
  cases hI : s.snapshot.index claim.UID with
  | some pds => exact Or.inl ⟨rfl, rfl⟩
  | none =>
    cases hA : claim.Status.Allocation with
    | none => exact Or.inl ⟨rfl, rfl⟩
    | some allocation =>
      simp only []
      cases hP : publishOutcome d o claim.UID
          (derivedDevices d claim.UID allocation.Devices.Results)
          (editsOf s o claim
            (allocation.Devices.Results.filter (fun r => r.Driver = GroupName))) with
      | error err => exact Or.inl ⟨rfl, rfl⟩
      | ok spec => exact Or.inr ⟨_, _, rfl, rfl⟩

/-- The effect of `Unprepare` on the two stores when no store operation fails: none, or the
entry and the artifact of the claim id are both removed. -/
theorem Unprepare_stores_of_noStoreFailure (d : Deps) (o : Oracle) (s : DeviceState)
    (claimUID : String) (ho : o.noStoreFailure) :
    ((DeviceState.Unprepare d o s claimUID).2.snapshot = s.snapshot ∧
      (DeviceState.Unprepare d o s claimUID).2.cdi.cache = s.cdi.cache) ∨
    ((DeviceState.Unprepare d o s claimUID).2.snapshot = s.snapshot.delete claimUID ∧
      (DeviceState.Unprepare d o s claimUID).2.cdi.cache
        = Function.update s.cdi.cache (claimSpecName d claimUID) none) := by
  obtain ⟨hG, _, hR, hC⟩ := ho
  rw [Unprepare_eq]
  simp only [hG, hR, hC]
  cases hI : s.snapshot.index claimUID with
  | none => exact Or.inl ⟨rfl, rfl⟩
  | some pds => exact Or.inr ⟨rfl, rfl⟩

/-- One step without store failure on a claim id of `U` keeps the two stores in agreement,
when the spec names of the ids of `U` are pairwise different. -/
theorem storesAgreeOn_step (d : Deps) (U : Set String) (s : DeviceState) (step : Step)
    (hinj : Set.InjOn (claimSpecName d) U) (ho : step.oracle.noStoreFailure)
    (hU : step.claimUID ∈ U) (hs : storesAgreeOn d U s) :
    storesAgreeOn d U (s.step d step) := by
  intro k hk
  cases step with
  | prepare o claim =>
    rcases Prepare_stores_of_noStoreFailure d o s claim ho with
      ⟨h₁, h₂⟩ | ⟨pds, spec, h₁, h₂⟩
    · show ((DeviceState.Prepare d o s claim).2.snapshot k).isSome = _
      rw [h₁]
      show _ = ((DeviceState.Prepare d o s claim).2.cdi.cache (claimSpecName d k)).isSome
      rw [h₂]
      exact hs k hk
    · show ((DeviceState.Prepare d o s claim).2.snapshot k).isSome
        = ((DeviceState.Prepare d o s claim).2.cdi.cache (claimSpecName d k)).isSome
      rw [h₁, h₂]
      by_cases hkc : k = claim.UID
      · subst hkc
        simp [PreparedClaims.set]
      · have hname : claimSpecName d k ≠ claimSpecName d claim.UID :=
          fun h => hkc (hinj hk hU h)
        simp only [PreparedClaims.set, Function.update_noteq hkc,
          Function.update_noteq hname]
        exact hs k hk
  | unprepare o claimUID =>
    rcases Unprepare_stores_of_noStoreFailure d o s claimUID ho with ⟨h₁, h₂⟩ | ⟨h₁, h₂⟩
    · show ((DeviceState.Unprepare d o s claimUID).2.snapshot k).isSome
        = ((DeviceState.Unprepare d o s claimUID).2.cdi.cache (claimSpecName d k)).isSome
      rw [h₁, h₂]
      exact hs k hk
    · show ((DeviceState.Unprepare d o s claimUID).2.snapshot k).isSome
        = ((DeviceState.Unprepare d o s claimUID).2.cdi.cache (claimSpecName d k)).isSome
      rw [h₁, h₂]
      by_cases hkc : k = claimUID
      · subst hkc
        simp [PreparedClaims.delete]
      · have hname : claimSpecName d k ≠ claimSpecName d claimUID :=
          fun h => hkc (hinj hk hU h)
        simp only [PreparedClaims.delete, Function.update_noteq hkc,
          Function.update_noteq hname]
        exact hs k hk

theorem storesAgreeOn_run (d : Deps) (U : Set String) (steps : List Step) (s : DeviceState)
    (hinj : Set.InjOn (claimSpecName d) U)
    (hsteps : ∀ step ∈ steps, step.oracle.noStoreFailure ∧ step.claimUID ∈ U)
    (hs : storesAgreeOn d U s) :
    storesAgreeOn d U (s.run d steps) := by
  induction steps generalizing s with
  | nil => exact hs
  | cons step rest ih =>
    have hstep := hsteps step (List.mem_cons_self _ _)
    exact ih (s.step d step) (fun t ht => hsteps t (List.mem_cons_of_mem _ ht))
      (storesAgreeOn_step d U s step hinj hstep.1 hstep.2 hs)

theorem enumerateAllCPUDevices_eq : enumerateAllCPUDevices = .ok inventory := rfl

/-- Every inventory device is the only inventory device of its name. -/
theorem inventory_filter_name :
    ∀ ka ∈ inventory,
      (inventory.filter (fun kb => ka.2.Name = kb.2.Name)).map (fun kb => kb.2.id)
        = [ka.2.id] := by
  decide

/-- The inner loop of `applyConfig` appends the ids of the visited devices of that name. -/
theorem foldl_range_allocatable (device : String) (order : AllocatableDevices)
    (init : List String) :
    order.foldl (fun threadIDs ka =>
        if device = ka.2.Name then threadIDs ++ [toString ka.2.id] else threadIDs) init
      = init ++ ((order.filter (fun ka => device = ka.2.Name)).map
          (fun ka => ka.2.id)).map toString := by
  induction order generalizing init with
  | nil => simp
  | cons ka rest ih =>
    simp only [List.foldl_cons, List.filter_cons, decide_eq_true_eq]
    split_ifs with hka
    · rw [ih]; simp
    · rw [ih]

/-- In whatever order the inventory is visited, exactly the one device of a given name is
found. -/
theorem range_ids_of_perm (order : AllocatableDevices) (hperm : order.Perm inventory)
    (device : String) (i : Int) (hid : idAttribute inventory device = some i) :
    (order.filter (fun ka => device = ka.2.Name)).map (fun ka => ka.2.id) = [i] := by
  unfold idAttribute at hid
  cases hfind : inventory.find? (fun ka => ka.2.Name = device) with
  | none => simp [hfind] at hid
  | some ka =>
    rw [hfind] at hid
    have hi : ka.2.id = i := Option.some.inj hid
    have hmem : ka ∈ inventory := List.mem_of_find?_eq_some hfind
    have hname : ka.2.Name = device := by
      simpa using List.find?_some hfind
    have hp := (hperm.filter (fun kb => decide (device = kb.2.Name))).map (fun kb => kb.2.id)
    have hone := inventory_filter_name ka hmem
    rw [hname, hi] at hone
    rw [hone] at hp
    exact List.perm_singleton.mp hp

/-- The outer loop of `applyConfig` over results that all name inventory devices. -/
theorem foldl_results_ids (o : Oracle)
    (horder : ∀ i, (o.rangeOrder i inventory).Perm inventory)
    (results : List resourceapi.DeviceRequestAllocationResult) :
    ∀ (n : Nat) (init : List String),
      (∀ r ∈ results, (idAttribute inventory r.Device).isSome) →
      (results.enumFrom n).foldl (fun threadIDs ir =>
        (o.rangeOrder ir.1 inventory).foldl (fun threadIDs ka =>
          if ir.2.Device = ka.2.Name then threadIDs ++ [toString ka.2.id] else threadIDs)
          threadIDs) init
        = init ++ (results.map (fun r => (idAttribute inventory r.Device).getD 0)).map
            toString := by
  induction results with
  | nil => intro n init _; simp
  | cons r rest ih =>
    intro n init hnamed
    obtain ⟨i, hi⟩ := Option.isSome_iff_exists.mp (hnamed r (List.mem_cons_self _ _))
    rw [List.enumFrom_cons, List.foldl_cons, foldl_range_allocatable,
      range_ids_of_perm _ (horder n) r.Device i hi,
      ih (n + 1) _ (fun t ht => hnamed t (List.mem_cons_of_mem _ ht))]
    simp [hi]

/-- The list that `GetClaimDevices` returns: the common device, then one name per unit. -/
theorem GetClaimDevices_eq (d : Deps) (claimUID : String) (devices : List String) :
    CDIHandler.GetClaimDevices d claimUID devices
      = d.QualifiedName (cdiVendor d) cdiClass cdiCommonDeviceName ::
          devices.map (fun device =>
            d.QualifiedName (cdiVendor d) cdiClass (claimUID ++ "-" ++ device)) := by
  unfold CDIHandler.GetClaimDevices
  simp only [foldl_append_singleton]
  rfl

theorem derivedDevices_getD (d : Deps) (claimUID : String)
    (results : List resourceapi.DeviceRequestAllocationResult) :
    (derivedDevices d claimUID results).getD []
      = (results.filter (fun r => r.Driver = GroupName)).map
          (fun r => { Device := handleOf d claimUID r, ContainerEdits := none }) := by
  unfold derivedDevices
  split
  · rename_i h
    rw [List.isEmpty_iff] at h
    simp [h]
  · simp

/-- The effect of `Prepare` on the two stores, whatever the oracle: the snapshot is as
before or has the entry of the claim set, and the CDI directory is as before or has the
artifact of the claim written. -/
theorem Prepare_stores (d : Deps) (o : Oracle) (s : DeviceState)
    (claim : resourceapi.ResourceClaim) :
    ((DeviceState.Prepare d o s claim).2.snapshot = s.snapshot ∨
      ∃ pds, (DeviceState.Prepare d o s claim).2.snapshot = s.snapshot.set claim.UID pds) ∧
    ((DeviceState.Prepare d o s claim).2.cdi.cache = s.cdi.cache ∨
      ∃ spec, (DeviceState.Prepare d o s claim).2.cdi.cache
        = Function.update s.cdi.cache (claimSpecName d claim.UID) (some spec)) := by
  rw [Prepare_eq]
  cases hG : o.GetCheckpoint with
  | some err => exact ⟨Or.inl rfl, Or.inl rfl⟩
  | none =>
    cases hI : s.snapshot.index claim.UID with
    | some pds => exact ⟨Or.inl rfl, Or.inl rfl⟩
    | none =>
      cases hA : claim.Status.Allocation with
      | none => exact ⟨Or.inl rfl, Or.inl rfl⟩
      | some allocation =>
        simp only []
        cases hP : publishOutcome d o claim.UID
            (derivedDevices d claim.UID allocation.Devices.Results)
            (editsOf s o claim
              (allocation.Devices.Results.filter (fun r => r.Driver = GroupName))) with
        | error err => exact ⟨Or.inl rfl, Or.inl rfl⟩
        | ok spec =>
          cases hC : o.CreateCheckpoint with
          | some err => exact ⟨Or.inl rfl, Or.inr ⟨_, rfl⟩⟩
          | none => exact ⟨Or.inr ⟨_, rfl⟩, Or.inr ⟨_, rfl⟩⟩

/-- The effect of `Unprepare` on the two stores, whatever the oracle: the snapshot is as
before or has the entry of the claim id deleted, and the CDI directory is as before or has
the artifact of the claim id removed. -/
theorem Unprepare_stores (d : Deps) (o : Oracle) (s : DeviceState) (claimUID : String) :
    ((DeviceState.Unprepare d o s claimUID).2.snapshot = s.snapshot ∨
      (DeviceState.Unprepare d o s claimUID).2.snapshot = s.snapshot.delete claimUID) ∧
    ((DeviceState.Unprepare d o s claimUID).2.cdi.cache = s.cdi.cache ∨
      (DeviceState.Unprepare d o s claimUID).2.cdi.cache
        = Function.update s.cdi.cache (claimSpecName d claimUID) none) := by
  rw [Unprepare_eq]
  cases hG : o.GetCheckpoint with
  | some err => exact ⟨Or.inl rfl, Or.inl rfl⟩
  | none =>
    cases hI : s.snapshot.index claimUID with
    | none => exact ⟨Or.inl rfl, Or.inl rfl⟩
    | some pds =>
      cases hR : o.RemoveSpec with
      | some err => exact ⟨Or.inl rfl, Or.inl rfl⟩
      | none =>
        cases hC : o.CreateCheckpoint with
        | some err => exact ⟨Or.inl rfl, Or.inr rfl⟩
        | none => exact ⟨Or.inr rfl, Or.inr rfl⟩

/-- A device name that the inventory does not have is found in no visiting order. -/
theorem range_ids_of_unknown (order : AllocatableDevices) (hperm : order.Perm inventory)
    (device : String) (hid : idAttribute inventory device = none) :
    (order.filter (fun ka => device = ka.2.Name)).map (fun ka => ka.2.id) = [] := by
  unfold idAttribute at hid
  have hnone : inventory.find? (fun ka => ka.2.Name = device) = none := by
    cases hfind : inventory.find? (fun ka => ka.2.Name = device) with
    | none => rfl
    | some ka => simp [hfind] at hid
  rw [List.find?_eq_none] at hnone
  rw [List.map_eq_nil_iff, List.filter_eq_nil_iff]
  intro ka hka hname
  have hmem : ka ∈ inventory := hperm.mem_iff.mp hka
  have := hnone ka hmem
  simp at hname this
  exact this hname.symm

/-- The outer loop of `applyConfig` over any results: the ids of the results that name an
inventory device, in order. -/
theorem foldl_results_known_ids (o : Oracle)
    (horder : ∀ i, (o.rangeOrder i inventory).Perm inventory)
    (results : List resourceapi.DeviceRequestAllocationResult) :
    ∀ (n : Nat) (init : List String),
      (results.enumFrom n).foldl (fun threadIDs ir =>
        (o.rangeOrder ir.1 inventory).foldl (fun threadIDs ka =>
          if ir.2.Device = ka.2.Name then threadIDs ++ [toString ka.2.id] else threadIDs)
          threadIDs) init
        = init ++ (results.filterMap (fun r => idAttribute inventory r.Device)).map
            toString := by
  induction results with
  | nil => intro n init; simp
  | cons r rest ih =>
    intro n init
    rw [List.enumFrom_cons, List.foldl_cons, foldl_range_allocatable, ih (n + 1)]
    cases hi : idAttribute inventory r.Device with
    | none =>
      rw [range_ids_of_unknown _ (horder n) r.Device hi]
      simp [List.filterMap_cons, hi]
    | some i =>
      rw [range_ids_of_perm _ (horder n) r.Device i hi]
      simp [List.filterMap_cons, hi]

theorem filterMap_length_eq_filter_isSome {α β : Type} (f : α → Option β) (l : List α) :
    (l.filterMap f).length = (l.filter (fun a => (f a).isSome)).length := by
  induction l with
  | nil => rfl
  | cons a rest ih =>
    cases ha : f a <;> simp [List.filterMap_cons, List.filter_cons, ha, ih]

theorem filterMap_filter_of_none {α β : Type} (f : α → Option β) (p : α → Bool)
    (l : List α) (hp : ∀ a ∈ l, p a = false → f a = none) :
    (l.filter p).filterMap f = l.filterMap f := by
  induction l with
  | nil => rfl
  | cons a rest ih =>
    have hrest := ih (fun b hb => hp b (List.mem_cons_of_mem _ hb))
    cases hpa : p a with
    | true => simp [List.filter_cons, List.filterMap_cons, hpa, hrest]
    | false =>
      have hfa := hp a (List.mem_cons_self _ _) hpa
      simp [List.filter_cons, List.filterMap_cons, hpa, hfa, hrest]

/-- The environment entry of `applyConfig` over the inventory, for any results and any
visiting order: the ids of the results that name an inventory device. -/
theorem editsOf_env (s : DeviceState) (o : Oracle) (claim : resourceapi.ResourceClaim)
    (results : List resourceapi.DeviceRequestAllocationResult)
    (halloc : s.allocatable = inventory)
    (horder : ∀ i, (o.rangeOrder i s.allocatable).Perm s.allocatable) :
    (editsOf s o claim results).Env
      = ["CPU_" ++ claim.Name ++ "=" ++ String.intercalate ","
          ((results.filterMap (fun r => idAttribute s.allocatable r.Device)).map toString)] := by
  rw [halloc] at horder
  unfold editsOf DeviceState.applyConfig
  simp only []
  rw [halloc, List.enum, foldl_results_known_ids o horder results 0 []]
  simp

/-- When `Prepare` returns an error, in terms of the test `preparedClaims[claimUID] != nil`
that the code makes. -/
theorem Prepare_error_iff (d : Deps) (o : Oracle) (s : DeviceState)
    (claim : resourceapi.ResourceClaim) :
    (∃ err, (DeviceState.Prepare d o s claim).1 = .error err) ↔
      (o.GetCheckpoint ≠ none ∨
        (s.snapshot.index claim.UID = none ∧
          (claim.Status.Allocation = none ∨
            ∃ allocation, claim.Status.Allocation = some allocation ∧
              ((∃ err, publishOutcome d o claim.UID
                  (derivedDevices d claim.UID allocation.Devices.Results)
                  (editsOf s o claim
                    (allocation.Devices.Results.filter (fun r => r.Driver = GroupName)))
                  = .error err) ∨
                o.CreateCheckpoint ≠ none)))) := by
  rw [Prepare_eq]
  cases hG : o.GetCheckpoint with
  | some err => simp
  | none =>
    cases hI : s.snapshot.index claim.UID with
    | some pds => simp
    | none =>
      cases hA : claim.Status.Allocation with
      | none => simp
      | some allocation =>
        simp only []
        cases hP : publishOutcome d o claim.UID
            (derivedDevices d claim.UID allocation.Devices.Results)
            (editsOf s o claim
              (allocation.Devices.Results.filter (fun r => r.Driver = GroupName))) with
        | error err => simp [hP]
        | ok spec =>
          cases hC : o.CreateCheckpoint with
          | some err => simp
          | none => simp [hP]

/-- When `Unprepare` returns an error, in terms of the test `preparedClaims[claimUID] == nil`
that the code makes. -/
theorem Unprepare_error_iff (d : Deps) (o : Oracle) (s : DeviceState) (claimUID : String) :
    (∃ err, (DeviceState.Unprepare d o s claimUID).1 = .error err) ↔
      (o.GetCheckpoint ≠ none ∨
        (s.snapshot.index claimUID ≠ none ∧
          (o.RemoveSpec ≠ none ∨ o.CreateCheckpoint ≠ none))) := by
  rw [Unprepare_eq]
  cases hG : o.GetCheckpoint with
  | some err => simp
  | none =>
    cases hI : s.snapshot.index claimUID with
    | none => simp
    | some pds =>
      cases hR : o.RemoveSpec with
      | some err => simp
      | none =>
        cases hC : o.CreateCheckpoint with
        | some err => simp
        | none => simp

/-- The derived devices of a claim with a matching result are a non-empty list. -/
theorem derivedDevices_of_matching (d : Deps) (claimUID : String)
    (results : List resourceapi.DeviceRequestAllocationResult)
    (r : resourceapi.DeviceRequestAllocationResult)
    (hr : r ∈ results) (hdriver : r.Driver = GroupName) :
    ∃ pd rest, (derivedDevices d claimUID results).getD [] = pd :: rest := by
  rw [derivedDevices_getD]
  have hmem : r ∈ results.filter (fun x => x.Driver = GroupName) := by
    rw [List.mem_filter]
    exact ⟨hr, by simpa using hdriver⟩
  cases hf : results.filter (fun x => x.Driver = GroupName) with
  | nil => rw [hf] at hmem; cases hmem
  | cons x xs => exact ⟨_, _, rfl⟩

/-- For a claim that the nil test takes for absent and that has a result of this driver,
`Prepare` returns an error whenever the checkpoint loads, whatever the oracle says of the
other store operations: the publish is refused. -/
theorem Prepare_of_matching_result_fails (d : Deps) (o : Oracle) (s : DeviceState)
    (claim : resourceapi.ResourceClaim) (allocation : resourceapi.AllocationResult)
    (r : resourceapi.DeviceRequestAllocationResult)
    (habsent : s.snapshot.index claim.UID = none)
    (halloc : claim.Status.Allocation = some allocation)
    (hr : r ∈ allocation.Devices.Results) (hdriver : r.Driver = GroupName) :
    (∃ err, (DeviceState.Prepare d o s claim).1 = .error err) ∧
    (DeviceState.Prepare d o s claim).2.snapshot = s.snapshot ∧
    (DeviceState.Prepare d o s claim).2.cdi = s.cdi := by
  obtain ⟨pd, rest, hdevices⟩ :=
    derivedDevices_of_matching d claim.UID allocation.Devices.Results r hr hdriver
  obtain ⟨perr, hP⟩ := publishOutcome_of_device d o claim.UID _
    (editsOf s o claim (allocation.Devices.Results.filter (fun r => r.Driver = GroupName)))
    pd rest hdevices
  rw [Prepare_eq]
  cases hG : o.GetCheckpoint with
  | some err => exact ⟨⟨_, rfl⟩, rfl, rfl⟩
  | none =>
    simp only [habsent, halloc, hP]
    refine ⟨⟨_, rfl⟩, ?_, ?_⟩ <;> first | rfl | trivial

/-- A `Prepare` that derives and succeeds returns no handle. -/
theorem Prepare_ok_of_absent_handles (d : Deps) (o : Oracle) (s : DeviceState)
    (claim : resourceapi.ResourceClaim) (handles : List drapbv1.Device)
    (habsent : s.snapshot.index claim.UID = none)
    (hok : (DeviceState.Prepare d o s claim).1 = .ok handles) :
    handles = [] := by
  cases hA : claim.Status.Allocation with
  | none =>
    rw [Prepare_eq] at hok
    cases hG : o.GetCheckpoint <;> simp [hG, habsent, hA] at hok
  | some allocation =>
    cases hf : allocation.Devices.Results.filter (fun x => x.Driver = GroupName) with
    | nil =>
      rcases Prepare_ok_cases d o s claim handles hok with
        ⟨pds, hI, -, -⟩ | ⟨-, allocation₂, v, hA₂, hh, -, -⟩
      · rw [habsent] at hI; cases hI
      · rw [hA] at hA₂
        cases Option.some.inj hA₂
        rw [hh, derivedDevices_GetDevices, hf]
        rfl
    | cons r rest =>
      have hmem : r ∈ allocation.Devices.Results.filter (fun x => x.Driver = GroupName) := by
        rw [hf]; exact List.mem_cons_self _ _
      rw [List.mem_filter] at hmem
      obtain ⟨⟨err, herr⟩, -, -⟩ := Prepare_of_matching_result_fails d o s claim allocation r
        habsent hA hmem.1 (by simpa using hmem.2)
      rw [herr] at hok
      cases hok

/-- `prepareDevices` does not validate against the inventory: for an allocated claim with a
result `r` of this driver naming a device that is not in the inventory it returns, without
an error, a handle for `r`, and the environment value holds the ids of the matching results
that name inventory devices, so `r` contributes none. -/
theorem prepareDevices_with_unknown_device (d : Deps) (o : Oracle) (s : DeviceState)
    (claim : resourceapi.ResourceClaim) (allocation : resourceapi.AllocationResult)
    (r : resourceapi.DeviceRequestAllocationResult)
    (hinventory : enumerateAllCPUDevices = .ok s.allocatable)
    (horder : ∀ i, (o.rangeOrder i s.allocatable).Perm s.allocatable)
    (halloc : claim.Status.Allocation = some allocation)
    (hr : r ∈ allocation.Devices.Results)
    (hdriver : r.Driver = "cpu.nvidia.com")
    (hunknown : idAttribute s.allocatable r.Device = none) :
    ∃ (pds : PreparedDevices) (edits : cdispec.ContainerEdits) (ids : List Int),
      s.prepareDevices d o claim = .ok (pds, edits) ∧
      handleOf d claim.UID r ∈ pds.GetDevices ∧
      edits.Env
        = ["CPU_" ++ claim.Name ++ "=" ++ String.intercalate "," (ids.map toString)] ∧
      ids = (allocation.Devices.Results.filter (fun x => x.Driver = "cpu.nvidia.com")).filterMap
        (fun x => idAttribute s.allocatable x.Device) ∧
      ids = ((allocation.Devices.Results.filter (fun x => x.Driver = "cpu.nvidia.com")).filter
        (fun x => x.Device ≠ r.Device)).filterMap
          (fun x => idAttribute s.allocatable x.Device) ∧
      ids.length = ((allocation.Devices.Results.filter
        (fun x => x.Driver = "cpu.nvidia.com")).filter
          (fun x => (idAttribute s.allocatable x.Device).isSome)).length := by
  have hinv : s.allocatable = inventory :=
    Except.ok.inj (hinventory.symm.trans enumerateAllCPUDevices_eq)
  have hmatch : r ∈ allocation.Devices.Results.filter (fun x => x.Driver = GroupName) := by
    rw [List.mem_filter]
    exact ⟨hr, by simpa [GroupName] using hdriver⟩
  refine ⟨derivedDevices d claim.UID allocation.Devices.Results,
    editsOf s o claim (allocation.Devices.Results.filter (fun x => x.Driver = GroupName)),
    _, ?_, ?_, ?_, rfl, ?_, ?_⟩
  · rw [prepareDevices_eq, halloc]
    simp only [applyConfig_eq_ok]
  · rw [derivedDevices_GetDevices]
    exact List.mem_map_of_mem _ hmatch
  · rw [editsOf_env s o claim _ hinv horder]
    rfl
  · symm
    apply filterMap_filter_of_none
    intro x _ hx
    have hdev : x.Device = r.Device := by simpa using hx
    rw [hdev]
    exact hunknown
  · exact filterMap_length_eq_filter_isSome _ _

/-! ## The claims -/

/-- C4. Idempotent unprepare: when the checkpoint loads and the loaded snapshot has no entry
for the claim id, `Unprepare` returns success, the only call it makes is the load (no
`DeleteClaimSpecFile`, no `CreateCheckpoint`), and it leaves the snapshot and the
descriptor artifacts unchanged. -/
theorem unprepare_without_entry_is_noop (d : Deps) (o : Oracle) (s : DeviceState)
    (claimUID : String) (hload : o.GetCheckpoint = none)
    (habsent : s.snapshot claimUID = none) :
    (DeviceState.Unprepare d o s claimUID).1 = .ok () ∧
    (DeviceState.Unprepare d o s claimUID).2.calls = s.calls ++ [Call.GetCheckpoint] ∧
    (DeviceState.Unprepare d o s claimUID).2.snapshot = s.snapshot ∧
    (DeviceState.Unprepare d o s claimUID).2.cdi = s.cdi := by
  rw [Unprepare_eq, hload, index_of_absent _ _ habsent]
  exact ⟨rfl, rfl, rfl, rfl⟩

theorem unprepare_without_entry_is_noop_witness :
    okOracle.GetCheckpoint = none ∧ initState.snapshot "abc" = none ∧
    (DeviceState.Unprepare stdDeps okOracle initState "abc").1 = .ok () ∧
    (DeviceState.Unprepare stdDeps okOracle initState "abc").2.calls
      = [Call.GetCheckpoint] :=
  ⟨rfl, rfl,
    (unprepare_without_entry_is_noop stdDeps okOracle initState "abc" rfl rfl).1,
    (unprepare_without_entry_is_noop stdDeps okOracle initState "abc" rfl rfl).2.1⟩

/-- C5, the code at the failing input: the concrete scenario of the claim. On a fresh node
the claim `abc` has no snapshot entry and one result `cpu-5` of this driver.
`prepareDevices` derives the one handle with `DeviceName` `cpu-5`, but `Prepare` returns no
handle: `CreateClaimSpecFile` builds the device `abc-cpu-5` without container edits, the
CDI library refuses the spec, and `Prepare` returns that error, with nothing published and
nothing stored. -/
theorem prepare_of_concrete_scenario_fails :
    initState.snapshot "abc" = none ∧
    initState.prepareDevices stdDeps okOracle claimAbc
      = .ok (some [PreparedDevice.mk handleAbc none], cdispec.ContainerEdits.mk ["CPU_c=5"]) ∧
    (DeviceState.Prepare stdDeps okOracle initState claimAbc).1
      = .error ("unable to create CDI spec file for claim: "
          ++ emptyEditsError "abc-cpu-5") ∧
    (DeviceState.Prepare stdDeps okOracle initState claimAbc).2.snapshot "abc" = none ∧
    (DeviceState.Prepare stdDeps okOracle initState claimAbc).2.cdi.cache
      (claimSpecName stdDeps "abc") = none :=
  ⟨rfl, rfl, rfl, rfl, rfl⟩

/-- C2, the code at the failing input. `claimOther` is allocated and none of its results is
owned by this driver. The first `Prepare` succeeds and stores the nil slice under `xyz`; the
second `Prepare` of the same claim finds `preparedClaims[claimUID] == nil`, so it calls
`prepareDevices`, `CreateClaimSpecFile` and `CreateCheckpoint` again, and it returns an error
when the spec cannot be written. -/
theorem reprepare_of_foreign_claim_rederives :
    (DeviceState.Prepare stdDeps okOracle initState claimOther).1 = .ok [] ∧
    otherPrepared.snapshot "xyz" = some none ∧
    (DeviceState.Prepare stdDeps okOracle otherPrepared claimOther).1 = .ok [] ∧
    (DeviceState.Prepare stdDeps okOracle otherPrepared claimOther).2.calls
      = otherPrepared.calls ++ [Call.GetCheckpoint, Call.prepareDevices "xyz",
          Call.CreateClaimSpecFile "xyz", Call.CreateCheckpoint] ∧
    (DeviceState.Prepare stdDeps publishFailOracle otherPrepared claimOther).1
      = .error "unable to create CDI spec file for claim: no space left on device" :=
  ⟨rfl, rfl, rfl, rfl, rfl⟩

/-- C3, the code at the failing input. After the successful `Prepare(claimOther)` the
descriptor artifact of `xyz` exists; `Unprepare("xyz")` then returns success having made no
call but the checkpoint load, the artifact is still there and the snapshot still has the key
`xyz` (bound to the nil slice). -/
theorem unprepare_of_foreign_claim_keeps_artifact :
    (DeviceState.Prepare stdDeps okOracle initState claimOther).1 = .ok [] ∧
    (otherPrepared.cdi.cache (claimSpecName stdDeps "xyz")).isSome = true ∧
    (DeviceState.Unprepare stdDeps okOracle otherPrepared "xyz").1 = .ok () ∧
    (DeviceState.Unprepare stdDeps okOracle otherPrepared "xyz").2.calls
      = otherPrepared.calls ++ [Call.GetCheckpoint] ∧
    ((DeviceState.Unprepare stdDeps okOracle otherPrepared "xyz").2.cdi.cache
      (claimSpecName stdDeps "xyz")).isSome = true ∧
    (DeviceState.Unprepare stdDeps okOracle otherPrepared "xyz").2.snapshot "xyz"
      = some none :=
  ⟨rfl, rfl, rfl, rfl, rfl, rfl⟩

/-- C6, as stated, fails. For `claimOther`, whose only result is owned by another driver,
`Prepare` succeeds with no handles, and the claim descriptor it publishes lists no devices
but carries the container edit `CPU_c=`; and `Prepare` of that claim returns an error when
the spec cannot be written. -/
theorem foreign_claim_descriptor_carries_env_edit :
    (DeviceState.Prepare stdDeps okOracle initState claimOther).1 = .ok [] ∧
    (DeviceState.Prepare stdDeps okOracle initState claimOther).2.cdi.cache
        (claimSpecName stdDeps "xyz")
      = some (specWithoutDevices stdDeps "0.3.0" ["CPU_c="]) ∧
    specWithoutDevices stdDeps "0.3.0" ["CPU_c="] ≠ specWithoutDevices stdDeps "0.3.0" [] ∧
    (DeviceState.Prepare stdDeps publishFailOracle initState claimOther).1
      = .error "unable to create CDI spec file for claim: no space left on device" :=
  ⟨rfl, rfl, by decide, rfl⟩

theorem derivedDevices_of_foreign (d : Deps) (claimUID : String)
    (results : List resourceapi.DeviceRequestAllocationResult)
    (hforeign : ∀ r ∈ results, r.Driver ≠ "cpu.nvidia.com") :
    results.filter (fun r => r.Driver = GroupName) = [] ∧
    derivedDevices d claimUID results = none := by
  have hfilter : results.filter (fun r => r.Driver = GroupName) = [] := by
    rw [List.filter_eq_nil_iff]
    intro r hr
    simpa [GroupName] using hforeign r hr
  exact ⟨hfilter, by simp [derivedDevices, hfilter]⟩

/-- C6 (amended). Driver filtering: for every allocated claim with no snapshot entry whose
allocation results are all owned by a driver other than `cpu.nvidia.com`, when no store
operation fails and the minimum spec version is found, `Prepare` succeeds with an empty set
of prepared devices (no handles returned, the nil `PreparedDevices` stored), and the claim
descriptor it publishes lists no devices and carries exactly one container edit, the
environment entry `CPU_<claim.Name>=` with an empty value. -/
theorem prepare_foreign_claim (d : Deps) (o : Oracle) (s : DeviceState)
    (claim : resourceapi.ResourceClaim) (allocation : resourceapi.AllocationResult)
    (v : String)
    (halloc : claim.Status.Allocation = some allocation)
    (hforeign : ∀ r ∈ allocation.Devices.Results, r.Driver ≠ "cpu.nvidia.com")
    (habsent : s.snapshot claim.UID = none)
    (hstores : o.noStoreFailure)
    (hversion : d.MinimumRequiredVersion (specWithoutDevices d "" []) = .ok v) :
    (DeviceState.Prepare d o s claim).1 = .ok [] ∧
    (DeviceState.Prepare d o s claim).2.snapshot claim.UID = some none ∧
    (DeviceState.Prepare d o s claim).2.cdi.cache (claimSpecName d claim.UID)
      = some (specWithoutDevices d v ["CPU_" ++ claim.Name ++ "="]) := by
  obtain ⟨hG, hW, _, hC⟩ := hstores
  obtain ⟨hfilter, hderived⟩ := derivedDevices_of_foreign d claim.UID _ hforeign
  have hdraft : draftSpec d claim.UID none = specWithoutDevices d "" [] := rfl
  have hpublish := publishOutcome_of_no_devices d o claim.UID none
    (editsOf s o claim []) v rfl (by rw [hdraft]; exact hversion) hW
  rw [Prepare_eq]
  simp only [hG, index_of_absent _ _ habsent, halloc, hderived, hfilter, hpublish, hC]
  refine ⟨rfl, ?_, ?_⟩
  · simp [DeviceState.snapshot, PreparedClaims.set, Checkpoint.UnmarshalCheckpoint,
      Checkpoint.MarshalCheckpoint]
  · simp [claimSpec, editsOf, DeviceState.applyConfig, String.intercalate, specWithoutDevices]

theorem prepare_foreign_claim_witness :
    (DeviceState.Prepare stdDeps okOracle initState claimOther).1 = .ok [] ∧
    (DeviceState.Prepare stdDeps okOracle initState claimOther).2.snapshot "xyz"
      = some none :=
  ⟨(prepare_foreign_claim stdDeps okOracle initState claimOther _ "0.3.0" rfl
      (by decide) rfl ⟨rfl, rfl, rfl, rfl⟩ rfl).1,
   (prepare_foreign_claim stdDeps okOracle initState claimOther _ "0.3.0" rfl
      (by decide) rfl ⟨rfl, rfl, rfl, rfl⟩ rfl).2.1⟩

/-- C8. Atomicity of the snapshot on failure: whenever `Prepare` or `Unprepare` returns an
error, the durable snapshot after the call equals the durable snapshot before the call; and
when the checkpoint loads, the claim has no snapshot entry, `prepareDevices` succeeds and
the descriptor publish `CreateClaimSpecFile` fails, `Prepare` returns that failure, the
claim still has no snapshot entry and the descriptor artifacts are as before. -/
theorem failed_call_keeps_snapshot (d : Deps) (o : Oracle) (s : DeviceState)
    (claim : resourceapi.ResourceClaim) (claimUID : String) :
    (∀ err, (DeviceState.Prepare d o s claim).1 = .error err →
      (DeviceState.Prepare d o s claim).2.snapshot = s.snapshot) ∧
    (∀ err, (DeviceState.Unprepare d o s claimUID).1 = .error err →
      (DeviceState.Unprepare d o s claimUID).2.snapshot = s.snapshot) ∧
    (∀ pds edits perr, o.GetCheckpoint = none → s.snapshot claim.UID = none →
      s.prepareDevices d o claim = .ok (pds, edits) →
      (s.cdi.CreateClaimSpecFile d o claim.UID pds edits).1 = .error perr →
      (DeviceState.Prepare d o s claim).1
        = .error ("unable to create CDI spec file for claim: " ++ perr) ∧
      (DeviceState.Prepare d o s claim).2.snapshot claim.UID = none ∧
      (DeviceState.Prepare d o s claim).2.cdi = s.cdi) := by
  refine ⟨?_, ?_, ?_⟩
  · intro err herr
    unfold DeviceState.snapshot
    rw [Prepare_error_checkpoint d o s claim err herr]
  · intro err herr
    unfold DeviceState.snapshot
    rw [Unprepare_error_checkpoint d o s claimUID err herr]
  · intro pds edits perr hG habsent hprep hpub
    rw [prepareDevices_eq] at hprep
    rw [CreateClaimSpecFile_eq] at hpub
    rw [Prepare_eq]
    simp only [hG, index_of_absent _ _ habsent]
    cases hA : claim.Status.Allocation with
    | none => simp [hA] at hprep
    | some allocation =>
      simp only [hA, applyConfig_eq_ok] at hprep
      obtain ⟨hpds, hedits⟩ := Prod.mk.inj (Except.ok.inj hprep)
      subst hpds
      subst hedits
      simp only []
      cases hP : publishOutcome d o claim.UID
          (derivedDevices d claim.UID allocation.Devices.Results)
          (editsOf s o claim
            (allocation.Devices.Results.filter (fun r => r.Driver = GroupName))) with
      | error e =>
        simp only [hP] at hpub
        cases Except.error.inj hpub
        exact ⟨rfl, habsent, rfl⟩
      | ok spec => simp [hP] at hpub

/-- C8, at concrete failing calls on a fresh node: the publish of `claimAbc` fails (the
library refuses the spec), and the publish of `claimOther` fails when the write fails. -/
theorem failed_call_keeps_snapshot_witness :
    (DeviceState.Prepare stdDeps publishFailOracle initState claimAbc).1
      = .error ("unable to create CDI spec file for claim: "
          ++ emptyEditsError "abc-cpu-5") ∧
    (DeviceState.Prepare stdDeps publishFailOracle initState claimAbc).2.snapshot
      = initState.snapshot ∧
    (DeviceState.Prepare stdDeps publishFailOracle initState claimAbc).2.snapshot "abc"
      = none ∧
    (DeviceState.Prepare stdDeps publishFailOracle initState claimOther).1
      = .error "unable to create CDI spec file for claim: no space left on device" ∧
    (DeviceState.Prepare stdDeps publishFailOracle initState claimOther).2.snapshot "xyz"
      = none :=
  ⟨rfl,
    (failed_call_keeps_snapshot stdDeps publishFailOracle initState claimAbc "abc").1 _ rfl,
    ((failed_call_keeps_snapshot stdDeps publishFailOracle initState claimAbc "abc").2.2
      _ _ (emptyEditsError "abc-cpu-5") rfl rfl rfl rfl).2.1,
    ((failed_call_keeps_snapshot stdDeps publishFailOracle initState claimOther "xyz").2.2
      _ _ "no space left on device" rfl rfl rfl rfl).1,
    ((failed_call_keeps_snapshot stdDeps publishFailOracle initState claimOther "xyz").2.2
      _ _ "no space left on device" rfl rfl rfl rfl).2.1⟩

/-- C9, as stated, fails. The CDI library names the artifact of a claim after the uid with
every `/` replaced by `_`, so the uids `a/b` and `a_b` share one artifact name. After the
one call `Prepare(claimSlash)` on a fresh node, with no store failure, the claim id `a_b`
has a descriptor artifact and no snapshot entry. -/
theorem artifact_without_entry_for_colliding_id :
    okOracle.noStoreFailure ∧
    (DeviceState.Prepare stdDeps okOracle initState claimSlash).1 = .ok [] ∧
    claimSpecName stdDeps "a_b" = claimSpecName stdDeps "a/b" ∧
    (initState.run stdDeps [Step.prepare okOracle claimSlash]).snapshot "a_b" = none ∧
    ((initState.run stdDeps [Step.prepare okOracle claimSlash]).cdi.cache
      (claimSpecName stdDeps "a_b")).isSome = true :=
  ⟨⟨rfl, rfl, rfl, rfl⟩, rfl, rfl, rfl, rfl⟩

/-- C9 (amended). Snapshot and descriptors agree: let `U` be a set of claim ids whose spec
names, as the CDI library generates them, are pairwise different. In every state reached from a state
with an empty snapshot and no claim artifact by a sequence of `Prepare` and `Unprepare`
calls on claims with ids in `U` in which no store operation fails, the ids of `U` that have
an entry in the snapshot are the ids of `U` that have a descriptor artifact, and each such
id has exactly one artifact. -/
theorem snapshot_agrees_with_descriptors (d : Deps) (U : Set String) (s₀ : DeviceState)
    (steps : List Step)
    (hinj : Set.InjOn (claimSpecName d) U)
    (hsnapshot : ∀ k, s₀.snapshot k = none)
    (hcache : ∀ k, s₀.cdi.cache (claimSpecName d k) = none)
    (hsteps : ∀ step ∈ steps, step.oracle.noStoreFailure ∧ step.claimUID ∈ U) :
    {k ∈ U | ∃ pds, (s₀.run d steps).snapshot k = some pds}
      = {k ∈ U | ∃ spec, (s₀.run d steps).cdi.cache (claimSpecName d k) = some spec} ∧
    ∀ k ∈ U, (∃ pds, (s₀.run d steps).snapshot k = some pds) →
      ∃! spec, (s₀.run d steps).cdi.cache (claimSpecName d k) = some spec := by
  have h₀ : storesAgreeOn d U s₀ := by
    intro k _
    rw [hsnapshot k, hcache k]
    rfl
  have hrun := storesAgreeOn_run d U steps s₀ hinj hsteps h₀
  have hiff : ∀ k ∈ U, (∃ pds, (s₀.run d steps).snapshot k = some pds) ↔
      ∃ spec, (s₀.run d steps).cdi.cache (claimSpecName d k) = some spec := by
    intro k hk
    rw [← Option.isSome_iff_exists, ← Option.isSome_iff_exists, hrun k hk]
  constructor
  · ext k
    simp only [Set.mem_setOf_eq]
    constructor
    · rintro ⟨hk, h⟩
      exact ⟨hk, (hiff k hk).1 h⟩
    · rintro ⟨hk, h⟩
      exact ⟨hk, (hiff k hk).2 h⟩
  · intro k hk h
    obtain ⟨spec, hspec⟩ := (hiff k hk).1 h
    exact ⟨spec, hspec, fun other hother => Option.some.inj (hother.symm.trans hspec)⟩

theorem snapshot_agrees_with_descriptors_witness :
    (∃ pds, (initState.run stdDeps [Step.prepare okOracle claimOther]).snapshot "xyz"
      = some pds) ∧
    (∃! spec, (initState.run stdDeps [Step.prepare okOracle claimOther]).cdi.cache
      (claimSpecName stdDeps "xyz") = some spec) := by
  have h := snapshot_agrees_with_descriptors stdDeps {"xyz"} initState
    [Step.prepare okOracle claimOther] (Set.injOn_singleton _ _) (fun _ => rfl) (fun _ => rfl)
    (by
      intro step hstep
      rw [List.mem_singleton] at hstep
      subst hstep
      exact ⟨⟨rfl, rfl, rfl, rfl⟩, rfl⟩)
  exact ⟨⟨_, rfl⟩, h.2 "xyz" rfl ⟨_, rfl⟩⟩

/-- C7. Environment edit: when the inventory is the one of `enumerateAllCPUDevices` and
every result names a device of the inventory, `applyConfig` returns exactly one environment
entry `CPU_<claim.Name>=<ids>`, where `<ids>` is the decimal `id` attribute of the device
of each result, in the order of the results, joined by a comma; this holds for every order
in which the range statements visit the inventory map. -/
theorem applyConfig_env_entry (s : DeviceState) (o : Oracle)
    (claim : resourceapi.ResourceClaim)
    (results : List resourceapi.DeviceRequestAllocationResult)
    (hinventory : enumerateAllCPUDevices = .ok s.allocatable)
    (horder : ∀ i, (o.rangeOrder i s.allocatable).Perm s.allocatable)
    (hnamed : ∀ r ∈ results, (idAttribute s.allocatable r.Device).isSome) :
    ∃ ids : List Int,
      results.map (fun r => idAttribute s.allocatable r.Device) = ids.map some ∧
      s.applyConfig o claim results
        = .ok { Env := ["CPU_" ++ claim.Name ++ "=" ++
            String.intercalate "," (ids.map toString)] } := by
  have halloc : s.allocatable = inventory :=
    Except.ok.inj (hinventory.symm.trans enumerateAllCPUDevices_eq)
  rw [halloc] at horder hnamed
  refine ⟨results.map (fun r => (idAttribute inventory r.Device).getD 0), ?_, ?_⟩
  · rw [halloc, List.map_map]
    apply List.map_congr_left
    intro r hr
    obtain ⟨i, hi⟩ := Option.isSome_iff_exists.mp (hnamed r hr)
    simp [hi]
  · unfold DeviceState.applyConfig
    rw [halloc, List.enum, foldl_results_ids o horder results 0 [] hnamed]
    simp

theorem applyConfig_env_entry_witness :
    (∃ ids : List Int,
      [idAttribute initState.allocatable "cpu-5"] = ids.map some ∧
      initState.applyConfig reverseOracle claimAbc
          [{ Request := "r", Driver := "cpu.nvidia.com", Pool := "p", Device := "cpu-5" }]
        = .ok { Env := ["CPU_c=" ++ String.intercalate "," (ids.map toString)] }) ∧
    idAttribute initState.allocatable "cpu-5" = some 5 ∧
    initState.applyConfig reverseOracle claimAbc
        [{ Request := "r", Driver := "cpu.nvidia.com", Pool := "p", Device := "cpu-5" }]
      = .ok { Env := ["CPU_c=5"] } :=
  ⟨applyConfig_env_entry initState reverseOracle claimAbc
      [{ Request := "r", Driver := "cpu.nvidia.com", Pool := "p", Device := "cpu-5" }]
      rfl (fun _ => List.reverse_perm _) (by decide),
    rfl, rfl⟩

/-- C12. Inventory contents: `enumerateAllCPUDevices` returns without error a map of exactly
32 units whose keys are `cpu-0` .. `cpu-31`, each unit keyed by its own `Name`; the unit
`cpu-t` has `id = t`, `parentID = t mod 16` and `numa = 0` when `parentID < 8` and `1`
otherwise; each core `c` of `0 .. 15` is the parent of exactly the two units `c` and
`c + 16`, which lie in the same numa node; `cpu-5` has id 5, parentID 5, numa 0. -/
theorem inventory_contents :
    enumerateAllCPUDevices = .ok inventory ∧
    inventory.length = 32 ∧
    inventory.map (fun e => e.1) = (List.range 32).map (fun t => "cpu-" ++ toString t) ∧
    (∀ e ∈ inventory, e.1 = e.2.Name) ∧
    (∀ t : Nat, t < 32 → inventory.get? ("cpu-" ++ toString t) = some (unitOf t)) ∧
    (∀ c : Nat, c < 16 →
      (inventory.filter (fun e => e.2.parentID = Int.ofNat c)).map
          (fun e => (e.2.id, e.2.numa))
        = [(Int.ofNat c, if c < 8 then 0 else 1),
           (Int.ofNat c + 16, if c < 8 then 0 else 1)]) ∧
    (inventory.get? "cpu-5").map (fun a => (a.id, a.parentID, a.numa)) = some (5, 5, 0) := by
  refine ⟨rfl, by decide, by decide, by decide, by decide, by decide, by decide⟩

/-- C13. Name qualification: when `QualifiedName` is the concatenation
`vendor "/" class "=" name` of the CDI library, `GetClaimDevices` on a claim uid and a list
of `n` unit ids returns a list of length `n + 1` whose first element is
`vendor "/" class "=common"` and whose further elements are
`vendor "/" class "=" uid "-" u` for the unit ids `u`, in the order of the input. The
result is a function of the two arguments: the method reads nothing else. -/
theorem GetClaimDevices_qualified_names (d : Deps) (claimUID : String)
    (devices : List String)
    (hqualified : ∀ vendor cls name,
      d.QualifiedName vendor cls name = vendor ++ "/" ++ cls ++ "=" ++ name) :
    (CDIHandler.GetClaimDevices d claimUID devices).length = devices.length + 1 ∧
    CDIHandler.GetClaimDevices d claimUID devices
      = (cdiVendor d ++ "/" ++ cdiClass ++ "=" ++ "common") ::
          devices.map (fun u =>
            cdiVendor d ++ "/" ++ cdiClass ++ "=" ++ (claimUID ++ "-" ++ u)) := by
  rw [GetClaimDevices_eq]
  refine ⟨by simp, ?_⟩
  simp only [hqualified, cdiCommonDeviceName]

theorem GetClaimDevices_qualified_names_witness :
    CDIHandler.GetClaimDevices stdDeps "abc" ["cpu-5", "cpu-21"]
      = ["k8s.cpu.nvidia.com/cpu=common", "k8s.cpu.nvidia.com/cpu=abc-cpu-5",
         "k8s.cpu.nvidia.com/cpu=abc-cpu-21"] :=
  (GetClaimDevices_qualified_names stdDeps "abc" ["cpu-5", "cpu-21"]
    (fun _ _ _ => rfl)).2.trans rfl

/-- C14. Config steps: for every `CpuConfig` pointer `c`, `Normalize` and `Validate` each
return an error exactly when `c` is nil, leave the config behind `c` as it was, and give
the same result and the same config when run a second time; the config that
`DefaultCpuConfig` returns has `Count = 16` and passes both. -/
theorem config_steps (c : Option CpuConfig) :
    ((∃ err, (CpuConfig.Normalize c).1 = .error err) ↔ c = none) ∧
    ((∃ err, (CpuConfig.Validate c).1 = .error err) ↔ c = none) ∧
    (CpuConfig.Normalize c).2 = c ∧
    (CpuConfig.Validate c).2 = c ∧
    CpuConfig.Normalize (CpuConfig.Normalize c).2 = CpuConfig.Normalize c ∧
    CpuConfig.Validate (CpuConfig.Validate c).2 = CpuConfig.Validate c ∧
    (∃ config, DefaultCpuConfig = some config ∧ config.Count = some 16) ∧
    (CpuConfig.Normalize DefaultCpuConfig).1 = .ok () ∧
    (CpuConfig.Validate DefaultCpuConfig).1 = .ok () := by
  cases c with
  | none =>
    refine ⟨⟨fun _ => rfl, fun _ => ⟨_, rfl⟩⟩, ⟨fun _ => rfl, fun _ => ⟨_, rfl⟩⟩,
      rfl, rfl, rfl, rfl, ⟨_, rfl, rfl⟩, rfl, rfl⟩
  | some config =>
    refine ⟨⟨?_, ?_⟩, ⟨?_, ?_⟩, rfl, rfl, rfl, rfl, ⟨_, rfl, rfl⟩, rfl, rfl⟩
    · rintro ⟨err, h⟩
      simp [CpuConfig.Normalize] at h
    · intro h
      cases h
    · rintro ⟨err, h⟩
      simp [CpuConfig.Validate] at h
    · intro h
      cases h

/-- C16. Orphan on checkpoint-write failure in `Prepare`: for an allocated claim with no
snapshot entry (so that `prepareDevices` succeeds after the load), if the descriptor publish
`CreateClaimSpecFile` succeeds and the following checkpoint write fails, `Prepare` returns
an error, the descriptor artifact of the claim uid exists afterwards, no
`DeleteClaimSpecFile` is among the calls made, and the durable snapshot has no entry for
the claim uid. -/
theorem prepare_write_failure_leaves_orphan (d : Deps) (o : Oracle) (s : DeviceState)
    (claim : resourceapi.ResourceClaim) (pds : PreparedDevices)
    (edits : cdispec.ContainerEdits) (err : String)
    (hload : o.GetCheckpoint = none)
    (habsent : s.snapshot claim.UID = none)
    (hprepare : s.prepareDevices d o claim = .ok (pds, edits))
    (hpublish : (s.cdi.CreateClaimSpecFile d o claim.UID pds edits).1 = .ok ())
    (hwrite : o.CreateCheckpoint = some err) :
    (DeviceState.Prepare d o s claim).1 = .error ("unable to sync to checkpoint: " ++ err) ∧
    (∃ spec, (DeviceState.Prepare d o s claim).2.cdi.cache (claimSpecName d claim.UID)
      = some spec) ∧
    (DeviceState.Prepare d o s claim).2.calls = s.calls ++ [Call.GetCheckpoint,
      Call.prepareDevices claim.UID, Call.CreateClaimSpecFile claim.UID,
      Call.CreateCheckpoint] ∧
    (DeviceState.Prepare d o s claim).2.snapshot claim.UID = none := by
  rw [prepareDevices_eq] at hprepare
  rw [CreateClaimSpecFile_eq] at hpublish
  rw [Prepare_eq]
  simp only [hload, index_of_absent _ _ habsent]
  cases hA : claim.Status.Allocation with
  | none => simp [hA] at hprepare
  | some allocation =>
    simp only [hA, applyConfig_eq_ok] at hprepare
    obtain ⟨hpds, hedits⟩ := Prod.mk.inj (Except.ok.inj hprepare)
    subst hpds
    subst hedits
    simp only []
    cases hP : publishOutcome d o claim.UID
        (derivedDevices d claim.UID allocation.Devices.Results)
        (editsOf s o claim
          (allocation.Devices.Results.filter (fun r => r.Driver = GroupName))) with
    | error e => simp [hP] at hpublish
    | ok spec =>
      rw [hwrite]
      exact ⟨rfl, ⟨_, Function.update_same _ _ _⟩, rfl, habsent⟩

theorem prepare_write_failure_leaves_orphan_witness :
    (DeviceState.Prepare stdDeps writeFailOracle initState claimOther).1
      = .error "unable to sync to checkpoint: no space left on device" ∧
    (∃ spec, (DeviceState.Prepare stdDeps writeFailOracle initState claimOther).2.cdi.cache
      (claimSpecName stdDeps "xyz") = some spec) ∧
    (DeviceState.Prepare stdDeps writeFailOracle initState claimOther).2.snapshot "xyz"
      = none := by
  have h := prepare_write_failure_leaves_orphan stdDeps writeFailOracle initState claimOther
    none (cdispec.ContainerEdits.mk ["CPU_c="]) "no space left on device" rfl rfl rfl rfl rfl
  exact ⟨h.1, h.2.1, h.2.2.2⟩

/-- C18, as stated, fails. The uids `a_b` and `a/b` differ and share one artifact name.
After `Prepare(claimUnderscore)` on a fresh node the artifact of `a_b` carries the edit
`CPU_n2=`; the call `Prepare(claimSlash)` then succeeds and the artifact of `a_b` carries
`CPU_n1=`. -/
theorem prepare_rewrites_artifact_of_colliding_id :
    claimUnderscore.UID ≠ claimSlash.UID ∧
    (DeviceState.Prepare stdDeps okOracle initState claimUnderscore).1 = .ok [] ∧
    ((DeviceState.Prepare stdDeps okOracle initState claimUnderscore).2.cdi.cache
      (claimSpecName stdDeps "a_b")).map (fun spec => spec.ContainerEdits.Env)
      = some ["CPU_n2="] ∧
    (DeviceState.Prepare stdDeps okOracle
      (DeviceState.Prepare stdDeps okOracle initState claimUnderscore).2 claimSlash).1
      = .ok [] ∧
    ((DeviceState.Prepare stdDeps okOracle
      (DeviceState.Prepare stdDeps okOracle initState claimUnderscore).2 claimSlash).2.cdi.cache
      (claimSpecName stdDeps "a_b")).map (fun spec => spec.ContainerEdits.Env)
      = some ["CPU_n1="] :=
  ⟨by decide, rfl, rfl, rfl, rfl⟩

/-- C18 (amended). Frame: for every claim `C` and every claim id `k` different from the uid
of `C` whose spec name is not the spec name of that uid, neither `Prepare(C)` nor
`Unprepare(C.uid)`, whatever the oracle (so whether the call succeeds or fails), changes the
snapshot entry stored for `k` or the descriptor artifact of `k`. -/
theorem calls_leave_other_claims (d : Deps) (o : Oracle) (s : DeviceState)
    (claim : resourceapi.ResourceClaim) (k : String)
    (hk : k ≠ claim.UID)
    (hname : claimSpecName d k = claimSpecName d claim.UID → k = claim.UID) :
    (DeviceState.Prepare d o s claim).2.snapshot k = s.snapshot k ∧
    (DeviceState.Prepare d o s claim).2.cdi.cache (claimSpecName d k)
      = s.cdi.cache (claimSpecName d k) ∧
    (DeviceState.Unprepare d o s claim.UID).2.snapshot k = s.snapshot k ∧
    (DeviceState.Unprepare d o s claim.UID).2.cdi.cache (claimSpecName d k)
      = s.cdi.cache (claimSpecName d k) := by
  have hspec : claimSpecName d k ≠ claimSpecName d claim.UID := fun h => hk (hname h)
  obtain ⟨hp₁, hp₂⟩ := Prepare_stores d o s claim
  obtain ⟨hu₁, hu₂⟩ := Unprepare_stores d o s claim.UID
  refine ⟨?_, ?_, ?_, ?_⟩
  · rcases hp₁ with h | ⟨pds, h⟩
    · rw [h]
    · rw [h]
      exact Function.update_noteq hk _ _
  · rcases hp₂ with h | ⟨spec, h⟩
    · rw [h]
    · rw [h]
      exact Function.update_noteq hspec _ _
  · rcases hu₁ with h | h
    · rw [h]
    · rw [h]
      exact Function.update_noteq hk _ _
  · rcases hu₂ with h | h
    · rw [h]
    · rw [h]
      exact Function.update_noteq hspec _ _

theorem calls_leave_other_claims_witness :
    (DeviceState.Prepare stdDeps okOracle otherPrepared claimOtherTwo).1 = .ok [] ∧
    (DeviceState.Prepare stdDeps okOracle otherPrepared claimOtherTwo).2.snapshot "xyz"
      = otherPrepared.snapshot "xyz" ∧
    (DeviceState.Prepare stdDeps okOracle otherPrepared claimOtherTwo).2.cdi.cache
        (claimSpecName stdDeps "xyz")
      = otherPrepared.cdi.cache (claimSpecName stdDeps "xyz") ∧
    (otherPrepared.cdi.cache (claimSpecName stdDeps "xyz")).isSome = true := by
  have h := calls_leave_other_claims stdDeps okOracle otherPrepared claimOtherTwo "xyz"
    (by decide) (fun hsame => absurd hsame (by decide))
  exact ⟨rfl, h.1, h.2.1, rfl⟩

/-- C20, the code at the failing input. On a fresh node the claim `claimUnknown` (uid `u99`)
is allocated, has no snapshot entry and has two results of this driver, for `cpu-5` and for
`cpu-99`, which is not in the inventory. `prepareDevices` validates nothing against the
inventory: it derives a handle for both results, and the environment value holds the one id
`5`. `Prepare` nevertheless fails, with no store operation failing: `CreateClaimSpecFile`
builds the devices of the spec without container edits and `WriteSpec` refuses the first of
them; no descriptor is published and no snapshot entry is written. -/
theorem prepare_with_unknown_device_fails :
    initState.snapshot "u99" = none ∧
    idAttribute initState.allocatable "cpu-99" = none ∧
    initState.prepareDevices stdDeps okOracle claimUnknown
      = .ok (some [PreparedDevice.mk (handleOf stdDeps "u99"
                (resourceapi.DeviceRequestAllocationResult.mk "r1" "cpu.nvidia.com" "p" "cpu-5"))
                none,
              PreparedDevice.mk (handleOf stdDeps "u99"
                (resourceapi.DeviceRequestAllocationResult.mk "r2" "cpu.nvidia.com" "p" "cpu-99"))
                none],
            cdispec.ContainerEdits.mk ["CPU_c=5"]) ∧
    okOracle.noStoreFailure ∧
    (DeviceState.Prepare stdDeps okOracle initState claimUnknown).1
      = .error ("unable to create CDI spec file for claim: " ++ emptyEditsError "u99-cpu-5") ∧
    (DeviceState.Prepare stdDeps okOracle initState claimUnknown).2.cdi.cache
      (claimSpecName stdDeps "u99") = none ∧
    (DeviceState.Prepare stdDeps okOracle initState claimUnknown).2.snapshot "u99" = none :=
  ⟨rfl, by decide, rfl, ⟨rfl, rfl, rfl, rfl⟩, rfl, rfl, rfl⟩

/-- C11, the code at the failing input. After the successful `Prepare(claimOther)` the
snapshot has an entry for `xyz` (bound to the nil slice, no result being owned by this
driver). A further `Prepare(claimOther)` in which the checkpoint loads and only the spec
write fails returns an error although the claim has a snapshot entry; with no failure at
all the same call succeeds. -/
theorem prepare_with_entry_returns_publish_error :
    (DeviceState.Prepare stdDeps okOracle initState claimOther).1 = .ok [] ∧
    otherPrepared.snapshot "xyz" = some none ∧
    publishFailOracle.GetCheckpoint = none ∧
    (DeviceState.Prepare stdDeps publishFailOracle otherPrepared claimOther).1
      = .error "unable to create CDI spec file for claim: no space left on device" ∧
    (DeviceState.Prepare stdDeps okOracle otherPrepared claimOther).1 = .ok [] :=
  ⟨rfl, rfl, rfl, rfl, rfl⟩

end NumaCpu
